import Mathlib

/-!
Verification of the qudit quantum-circuit builder and engine of
qpp (file include/classes/circuits.h): a shallow embedding of the
QCircuit builder operations, the matrix hash cache, and the QEngine
state bookkeeping, together with theorems settling the specification
claims about them.
-/

namespace Qpp

/-- Error kinds thrown by the builder and the engine, mirroring the
qpp exception classes raised in circuits.h. HashCollision stands for the
CustomException with message Matrix hash collision. -/
inductive Err where
  | OutOfRange
  | ZeroSize
  | Duplicates
  | QuditAlreadyMeasured
  | MatrixNotSquare
  | DimsMismatchMatrix
  | DimsNotEqual
  | HashCollision
  | NotImplemented
  | InvalidIterator
deriving DecidableEq, Repr

/-- Gate types, mirroring QCircuit::GateType. -/
inductive GateType where
  | NONE
  | SINGLE
  | TWO
  | THREE
  | CUSTOM
  | FAN
  | QFT
  | TFQ
  | SINGLE_CTRL_SINGLE_TARGET
  | SINGLE_CTRL_MULTIPLE_TARGET
  | MULTIPLE_CTRL_SINGLE_TARGET
  | MULTIPLE_CTRL_MULTIPLE_TARGET
  | CUSTOM_CTRL
  | SINGLE_cCTRL_SINGLE_TARGET
  | SINGLE_cCTRL_MULTIPLE_TARGET
  | MULTIPLE_cCTRL_SINGLE_TARGET
  | MULTIPLE_cCTRL_MULTIPLE_TARGET
  | CUSTOM_cCTRL
deriving DecidableEq, Repr

/-- Measurement types, mirroring QCircuit::MeasureType. -/
inductive MeasureType where
  | NONE
  | MEASURE_Z
  | MEASURE_V
  | MEASURE_V_MANY
deriving DecidableEq, Repr

/-- Timeline step tags, mirroring QCircuit::StepType. -/
inductive StepType where
  | NONE
  | GATE
  | MEASUREMENT
deriving DecidableEq, Repr

/-- Modelled from the spec: dense complex matrices (cmat) are an external
linear-algebra primitive; the builder observes only their row and column
counts and their content identity, so a matrix is embedded as its shape
together with an abstract content value. -/
structure Cmat where
  rows : Nat
  cols : Nat
  entries : List Int
deriving DecidableEq, Repr

instance : Inhabited Cmat := ⟨⟨0, 0, []⟩⟩

/-- Modelled from the spec: the host services used by the builder which are
external to circuits.h: the gate-name catalog lookup
(Gates::get_instance().get_name), the 64-bit content digest (hash_eigen) and
the fuzzy elementwise equality on matrices (internal::EqualEigen). They are
abstract parameters of every builder operation. -/
structure Ext where
  get_name : Cmat → String
  hash_eigen : Cmat → Nat
  equal_eigen : Cmat → Cmat → Bool

/-- Modelled from the spec: internal::check_square_mat, true when the matrix
is square. -/
def check_square_mat (U : Cmat) : Bool := U.rows == U.cols

/-- Modelled from the spec: internal::check_no_duplicates, true when the list
has pairwise-distinct elements. -/
def check_no_duplicates (v : List Nat) : Bool := decide v.Nodup

/-- The matrix hash table (std::unordered_map of hash to cmat), embedded as
an association list keyed by the digest. -/
abbrev Cache := List (Nat × Cmat)

/-- Lookup in the hash table (unordered_map::find). -/
def cacheFind (tbl : Cache) (h : Nat) : Option Cmat :=
  (tbl.find? (fun p => p.1 == h)).map (fun p => p.2)

/-- Insertion in the hash table (unordered_map::insert): when the key is
already present the insertion is a no-op and the stored value is kept. -/
def cacheInsert (tbl : Cache) (h : Nat) (U : Cmat) : Cache :=
  if (tbl.find? (fun p => p.1 == h)).isSome then tbl else (h, U) :: tbl

/-- QCircuit::add_hash_: look the digest up; on a hit with content that the
equality predicate rejects, fail with the hash-collision error; otherwise
insert (a no-op when the key is present). -/
def add_hash (E : Ext) (U : Cmat) (hashU : Nat) (tbl : Cache) :
    Except Err Cache :=
  match cacheFind tbl hashU with
  | some V => if ¬ E.equal_eigen V U then Except.error Err.HashCollision
      else Except.ok (cacheInsert tbl hashU U)
  | none => Except.ok (cacheInsert tbl hashU U)

/-- One gate step, mirroring QCircuit::GateStep. -/
structure GateStep where
  gate_type : GateType
  gate_hash : Nat
  ctrl : List Nat
  target : List Nat
  name : String
deriving DecidableEq, Repr

/-- One measurement step, mirroring QCircuit::MeasureStep. -/
structure MeasureStep where
  measurement_type : MeasureType
  mats_hash : List Nat
  target : List Nat
  c_reg : Nat
  name : String
deriving DecidableEq, Repr

/-- The circuit: immutable arity configuration plus the mutable construction
state of QCircuit (measured flags, matrix cache, per-name counters, the three
parallel step containers). -/
structure QCircuit where
  nq : Nat
  nc : Nat
  d : Nat
  name : String
  measured : List Bool
  cache : Cache
  count : List (String × Nat)
  measurement_count : List (String × Nat)
  gates : List GateStep
  measurements : List MeasureStep
  step_types : List StepType
deriving DecidableEq, Repr

/-- QCircuit::QCircuit(nq, nc, d, name): rejects nq = 0 (ZeroSize) and
d < 2 (OutOfRange), otherwise starts with all qudits non-measured and all
construction state empty. -/
def mkQCircuit (nq nc d : Nat) (name : String) : Except Err QCircuit :=
  if nq = 0 then Except.error Err.ZeroSize
  else if d < 2 then Except.error Err.OutOfRange
  else Except.ok
    { nq := nq, nc := nc, d := d, name := name
      measured := List.replicate nq false
      cache := [], count := [], measurement_count := []
      gates := [], measurements := [], step_types := [] }

/-- QCircuit::get_measured(i) as used inside the builder after the range
check: reads the measured flag of qudit i. -/
def getMeasured (qc : QCircuit) (i : Nat) : Bool :=
  qc.measured.getD i false

/-- QCircuit::get_non_measured(): the ascending list of non-measured qudit
indexes. -/
def get_non_measured (qc : QCircuit) : List Nat :=
  (List.range qc.nq).filter (fun i => ¬ getMeasured qc i)

/-- QCircuit::get_gate_count(): the sum of all per-name gate counters. -/
def get_gate_count (qc : QCircuit) : Nat :=
  (qc.count.map (fun p => p.2)).sum

/-- Lookup of a per-name counter (unordered_map::at, none when absent). -/
def lookupCount (m : List (String × Nat)) (name : String) : Option Nat :=
  (m.find? (fun p => p.1 == name)).map (fun p => p.2)

/-- Per-name counter value with the default 0 for an absent name. -/
def lookupCountD (m : List (String × Nat)) (name : String) : Nat :=
  (lookupCount m name).getD 0

/-- QCircuit::get_gate_count(name): the counter stored for the name, failing
when the name is absent (unordered_map::at throws). -/
def get_gate_count_name (qc : QCircuit) (name : String) : Option Nat :=
  lookupCount qc.count name

/-- The counter-map update performed by count_[name] += k: add k to the
entry of the name when present (operator[] default-inserts 0 first),
otherwise append a fresh entry holding k. -/
def bumpCount (m : List (String × Nat)) (name : String) (k : Nat) :
    List (String × Nat) :=
  match m with
  | [] => [(name, k)]
  | (n, v) :: rest =>
      if n = name then (n, v + k) :: rest else (n, v) :: bumpCount rest name k

/-- QCircuit::get_step_count(). -/
def get_step_count (qc : QCircuit) : Nat := qc.step_types.length

/-- The empty string (the default gate-name argument). -/
def strEmpty : String := ""

/-- The literal CTRL used as the fallback display name of controlled gates. -/
def strCTRL : String := "CTRL"

/-- The literal prefixed before a catalog name for quantum-controlled
gates. -/
def strCTRLdash : String := "CTRL-"

/-- The literal cCTRL used as the fallback display name of
classically-controlled gates. -/
def strcCTRL : String := "cCTRL"

/-- The literal prefixed before a catalog name for classically-controlled
gates. -/
def strcCTRLdash : String := "cCTRL-"

/-- The literal Z, the default measureZ display name. -/
def strZ : String := "Z"

/-- Display-name derivation of the plain gate builders: an empty caller name
is replaced by the catalog name of the matrix. -/
def resolveName (E : Ext) (U : Cmat) (nm : String) : String :=
  if nm = strEmpty then E.get_name U else nm

/-- Display-name derivation of the quantum-controlled builders: an empty
caller name becomes CTRL- prepended to the catalog name, or bare CTRL when
the catalog returns empty. -/
def resolveNameCTRL (E : Ext) (U : Cmat) (nm : String) : String :=
  if nm = strEmpty then
    (if E.get_name U = strEmpty then strCTRL else strCTRLdash ++ E.get_name U)
  else nm

/-- Display-name derivation of the classically-controlled builders: an empty
caller name becomes cCTRL- prepended to the catalog name, or bare cCTRL when
the catalog returns empty. -/
def resolveNameCCTRL (E : Ext) (U : Cmat) (nm : String) : String :=
  if nm = strEmpty then
    (if E.get_name U = strEmpty then strcCTRL
     else strcCTRLdash ++ E.get_name U)
  else nm

/-- The common tail of every successful gate builder: hash the matrix, add
it to the cache (failing on a hash collision before any mutation), then
append the gate step, push a GATE tag and add k to the per-name counter.
Every builder returns the possibly-mutated circuit next to the error slot,
mirroring a C++ method whose exceptions leave this-state behind. -/
def emitGate (E : Ext) (U : Cmat) (gt : GateType) (ctrl target : List Nat)
    (name : String) (k : Nat) (qc : QCircuit) : Option Err × QCircuit :=
  match add_hash E U (E.hash_eigen U) qc.cache with
  | Except.error e => (some e, qc)
  | Except.ok tbl =>
      (none, { qc with
                 cache := tbl
                 gates := qc.gates ++
                   [⟨gt, E.hash_eigen U, ctrl, target, name⟩]
                 step_types := qc.step_types ++ [StepType.GATE]
                 count := bumpCount qc.count name k })

/-- The per-element validation loop shared by every vector-of-qudits
parameter: the first out-of-range element fails with OutOfRange, the first
already-measured one with QuditAlreadyMeasured. -/
def checkTargets (qc : QCircuit) : List Nat → Option Err
  | [] => none
  | t :: ts =>
      if t ≥ qc.nq then some Err.OutOfRange
      else if getMeasured qc t then some Err.QuditAlreadyMeasured
      else checkTargets qc ts

/-- The per-element validation loop of classical-control dit vectors: only
the range bound against nc is checked. -/
def checkDits (qc : QCircuit) : List Nat → Option Err
  | [] => none
  | c :: cs => if c ≥ qc.nc then some Err.OutOfRange else checkDits qc cs

/-- QCircuit::gate(U, i): the single-qudit gate builder. -/
def gate1 (E : Ext) (U : Cmat) (i : Nat) (nm : String) (qc : QCircuit) :
    Option Err × QCircuit :=
  if i ≥ qc.nq then (some Err.OutOfRange, qc)
  else if getMeasured qc i then (some Err.QuditAlreadyMeasured, qc)
  else if ¬ check_square_mat U then (some Err.MatrixNotSquare, qc)
  else if U.rows ≠ qc.d then (some Err.DimsMismatchMatrix, qc)
  else emitGate E U GateType.SINGLE [] [i] (resolveName E U nm) 1 qc

/-- QCircuit::gate(U, i, j): the two-qudit gate builder. -/
def gate2 (E : Ext) (U : Cmat) (i j : Nat) (nm : String) (qc : QCircuit) :
    Option Err × QCircuit :=
  if i ≥ qc.nq ∨ j ≥ qc.nq ∨ i = j then (some Err.OutOfRange, qc)
  else if getMeasured qc i ∨ getMeasured qc j then
    (some Err.QuditAlreadyMeasured, qc)
  else if ¬ check_square_mat U then (some Err.MatrixNotSquare, qc)
  else if U.rows ≠ qc.d * qc.d then (some Err.DimsMismatchMatrix, qc)
  else emitGate E U GateType.TWO [] [i, j] (resolveName E U nm) 1 qc

/-- QCircuit::gate(U, i, j, k): the three-qudit gate builder. -/
def gate3 (E : Ext) (U : Cmat) (i j k : Nat) (nm : String) (qc : QCircuit) :
    Option Err × QCircuit :=
  if i ≥ qc.nq ∨ j ≥ qc.nq ∨ k ≥ qc.nq ∨ i = j ∨ i = k ∨ j = k then
    (some Err.OutOfRange, qc)
  else if getMeasured qc i ∨ getMeasured qc j ∨ getMeasured qc k then
    (some Err.QuditAlreadyMeasured, qc)
  else if ¬ check_square_mat U then (some Err.MatrixNotSquare, qc)
  else if U.rows ≠ qc.d * qc.d * qc.d then (some Err.DimsMismatchMatrix, qc)
  else emitGate E U GateType.THREE [] [i, j, k] (resolveName E U nm) 1 qc

/-- QCircuit::gate_fan(U, target): the fan builder with an explicit target
list; the per-name counter is advanced by the target-list length. -/
def gate_fan (E : Ext) (U : Cmat) (target : List Nat) (nm : String)
    (qc : QCircuit) : Option Err × QCircuit :=
  if target.length = 0 then (some Err.ZeroSize, qc)
  else match checkTargets qc target with
  | some e => (some e, qc)
  | none =>
      if ¬ check_no_duplicates target then (some Err.Duplicates, qc)
      else if ¬ check_square_mat U then (some Err.MatrixNotSquare, qc)
      else if U.rows ≠ qc.d then (some Err.DimsMismatchMatrix, qc)
      else emitGate E U GateType.FAN [] target (resolveName E U nm)
        target.length qc

/-- QCircuit::gate_fan(U): the no-target-list overload, fanning over the
current non-measured snapshot. -/
def gate_fan_all (E : Ext) (U : Cmat) (nm : String) (qc : QCircuit) :
    Option Err × QCircuit :=
  if ¬ check_square_mat U then (some Err.MatrixNotSquare, qc)
  else if U.rows ≠ qc.d then (some Err.DimsMismatchMatrix, qc)
  else emitGate E U GateType.FAN [] (get_non_measured qc)
    (resolveName E U nm) (get_non_measured qc).length qc

/-- QCircuit::gate_custom(U, target): the joint custom gate builder; the
expected matrix dimension is d raised to the target count. -/
def gate_custom (E : Ext) (U : Cmat) (target : List Nat) (nm : String)
    (qc : QCircuit) : Option Err × QCircuit :=
  if target.length = 0 then (some Err.ZeroSize, qc)
  else match checkTargets qc target with
  | some e => (some e, qc)
  | none =>
      if ¬ check_no_duplicates target then (some Err.Duplicates, qc)
      else if ¬ check_square_mat U then (some Err.MatrixNotSquare, qc)
      else if U.rows ≠ qc.d ^ target.length then
        (some Err.DimsMismatchMatrix, qc)
      else emitGate E U GateType.CUSTOM [] target (resolveName E U nm) 1 qc

/-- QCircuit::QFT(target, swap): throws NotImplemented unconditionally; the
append code after the throw is unreachable, so the circuit is returned
untouched. -/
def QFT (target : List Nat) (swap : Bool) (qc : QCircuit) :
    Option Err × QCircuit :=
  (some Err.NotImplemented, qc)

/-- QCircuit::TFQ(target, swap): throws NotImplemented unconditionally; the
append code after the throw is unreachable, so the circuit is returned
untouched. -/
def TFQ (target : List Nat) (swap : Bool) (qc : QCircuit) :
    Option Err × QCircuit :=
  (some Err.NotImplemented, qc)

/-- QCircuit::get_gate_depth(): throws NotImplemented. -/
def get_gate_depth (qc : QCircuit) : Except Err Nat :=
  Except.error Err.NotImplemented

/-- QCircuit::get_gate_depth(name): throws NotImplemented. -/
def get_gate_depth_name (qc : QCircuit) (name : String) : Except Err Nat :=
  Except.error Err.NotImplemented

/-- QCircuit::CTRL(U, ctrl, target) with scalar control and scalar
target. -/
def CTRL_sst (E : Ext) (U : Cmat) (ctrl target : Nat) (nm : String)
    (qc : QCircuit) : Option Err × QCircuit :=
  if ctrl ≥ qc.nq ∨ target ≥ qc.nq ∨ ctrl = target then
    (some Err.OutOfRange, qc)
  else if getMeasured qc ctrl ∨ getMeasured qc target then
    (some Err.QuditAlreadyMeasured, qc)
  else if ¬ check_square_mat U then (some Err.MatrixNotSquare, qc)
  else if U.rows ≠ qc.d then (some Err.DimsMismatchMatrix, qc)
  else emitGate E U GateType.SINGLE_CTRL_SINGLE_TARGET [ctrl] [target]
    (resolveNameCTRL E U nm) 1 qc

/-- QCircuit::CTRL(U, ctrl, target) with scalar control and target
vector. -/
def CTRL_smt (E : Ext) (U : Cmat) (ctrl : Nat) (target : List Nat)
    (nm : String) (qc : QCircuit) : Option Err × QCircuit :=
  if ctrl ≥ qc.nq then (some Err.OutOfRange, qc)
  else if getMeasured qc ctrl then (some Err.QuditAlreadyMeasured, qc)
  else if target.length = 0 then (some Err.ZeroSize, qc)
  else match checkTargets qc target with
  | some e => (some e, qc)
  | none =>
      if ¬ check_no_duplicates target then (some Err.Duplicates, qc)
      else if target.any (fun t => t = ctrl) then (some Err.OutOfRange, qc)
      else if ¬ check_square_mat U then (some Err.MatrixNotSquare, qc)
      else if U.rows ≠ qc.d then (some Err.DimsMismatchMatrix, qc)
      else emitGate E U GateType.SINGLE_CTRL_MULTIPLE_TARGET [ctrl] target
        (resolveNameCTRL E U nm) 1 qc

/-- QCircuit::CTRL(U, ctrl, target) with control vector and scalar target.
The control vector is only range- and measurement-checked element by
element; an empty vector passes every check. -/
def CTRL_mst (E : Ext) (U : Cmat) (ctrl : List Nat) (target : Nat)
    (nm : String) (qc : QCircuit) : Option Err × QCircuit :=
  match checkTargets qc ctrl with
  | some e => (some e, qc)
  | none =>
      if ¬ check_no_duplicates ctrl then (some Err.Duplicates, qc)
      else if target ≥ qc.nq then (some Err.OutOfRange, qc)
      else if getMeasured qc target then (some Err.QuditAlreadyMeasured, qc)
      else if ctrl.any (fun c => c = target) then (some Err.OutOfRange, qc)
      else if ¬ check_square_mat U then (some Err.MatrixNotSquare, qc)
      else if U.rows ≠ qc.d then (some Err.DimsMismatchMatrix, qc)
      else emitGate E U GateType.MULTIPLE_CTRL_SINGLE_TARGET ctrl [target]
        (resolveNameCTRL E U nm) 1 qc

/-- QCircuit::CTRL(U, ctrl, target) with control vector and target vector.
Only the target vector is checked for non-emptiness. -/
def CTRL_mmt (E : Ext) (U : Cmat) (ctrl target : List Nat) (nm : String)
    (qc : QCircuit) : Option Err × QCircuit :=
  match checkTargets qc ctrl with
  | some e => (some e, qc)
  | none =>
      if ¬ check_no_duplicates ctrl then (some Err.Duplicates, qc)
      else if target.length = 0 then (some Err.ZeroSize, qc)
      else match checkTargets qc target with
      | some e => (some e, qc)
      | none =>
          if ¬ check_no_duplicates target then (some Err.Duplicates, qc)
          else if ctrl.any (fun c => target.any (fun t => c = t)) then
            (some Err.OutOfRange, qc)
          else if ¬ check_square_mat U then (some Err.MatrixNotSquare, qc)
          else if U.rows ≠ qc.d then (some Err.DimsMismatchMatrix, qc)
          else emitGate E U GateType.MULTIPLE_CTRL_MULTIPLE_TARGET ctrl
            target (resolveNameCTRL E U nm) 1 qc

/-- QCircuit::CTRL_custom(U, ctrl, target): the joint custom controlled
gate; the source has no duplicate check on the target vector here. -/
def CTRL_custom (E : Ext) (U : Cmat) (ctrl target : List Nat) (nm : String)
    (qc : QCircuit) : Option Err × QCircuit :=
  match checkTargets qc ctrl with
  | some e => (some e, qc)
  | none =>
      if ¬ check_no_duplicates ctrl then (some Err.Duplicates, qc)
      else if target.length = 0 then (some Err.ZeroSize, qc)
      else match checkTargets qc target with
      | some e => (some e, qc)
      | none =>
          if ctrl.any (fun c => target.any (fun t => c = t)) then
            (some Err.OutOfRange, qc)
          else if ¬ check_square_mat U then (some Err.MatrixNotSquare, qc)
          else if U.rows ≠ qc.d ^ target.length then
            (some Err.DimsMismatchMatrix, qc)
          else emitGate E U GateType.CUSTOM_CTRL ctrl target
            (resolveNameCTRL E U nm) 1 qc

/-- QCircuit::cCTRL(U, ctrl_dit, target) with scalar classical control and
scalar target. -/
def cCTRL_sst (E : Ext) (U : Cmat) (ctrl_dit target : Nat) (nm : String)
    (qc : QCircuit) : Option Err × QCircuit :=
  if ctrl_dit ≥ qc.nc ∨ target ≥ qc.nq then (some Err.OutOfRange, qc)
  else if getMeasured qc target then (some Err.QuditAlreadyMeasured, qc)
  else if ¬ check_square_mat U then (some Err.MatrixNotSquare, qc)
  else if U.rows ≠ qc.d then (some Err.DimsMismatchMatrix, qc)
  else emitGate E U GateType.SINGLE_cCTRL_SINGLE_TARGET [ctrl_dit] [target]
    (resolveNameCCTRL E U nm) 1 qc

/-- QCircuit::cCTRL(U, ctrl_dit, target) with scalar classical control and
target vector. -/
def cCTRL_smt (E : Ext) (U : Cmat) (ctrl_dit : Nat) (target : List Nat)
    (nm : String) (qc : QCircuit) : Option Err × QCircuit :=
  if ctrl_dit ≥ qc.nc then (some Err.OutOfRange, qc)
  else if target.length = 0 then (some Err.ZeroSize, qc)
  else match checkTargets qc target with
  | some e => (some e, qc)
  | none =>
      if ¬ check_no_duplicates target then (some Err.Duplicates, qc)
      else if ¬ check_square_mat U then (some Err.MatrixNotSquare, qc)
      else if U.rows ≠ qc.d then (some Err.DimsMismatchMatrix, qc)
      else emitGate E U GateType.SINGLE_cCTRL_MULTIPLE_TARGET [ctrl_dit]
        target (resolveNameCCTRL E U nm) 1 qc

/-- QCircuit::cCTRL(U, ctrl_dits, target) with classical-control vector and
scalar target. The dits vector is only range-checked element by element; an
empty vector passes every check. -/
def cCTRL_mst (E : Ext) (U : Cmat) (ctrl_dits : List Nat) (target : Nat)
    (nm : String) (qc : QCircuit) : Option Err × QCircuit :=
  match checkDits qc ctrl_dits with
  | some e => (some e, qc)
  | none =>
      if ¬ check_no_duplicates ctrl_dits then (some Err.Duplicates, qc)
      else if target ≥ qc.nq then (some Err.OutOfRange, qc)
      else if getMeasured qc target then (some Err.QuditAlreadyMeasured, qc)
      else if ¬ check_square_mat U then (some Err.MatrixNotSquare, qc)
      else if U.rows ≠ qc.d then (some Err.DimsMismatchMatrix, qc)
      else emitGate E U GateType.MULTIPLE_cCTRL_SINGLE_TARGET ctrl_dits
        [target] (resolveNameCCTRL E U nm) 1 qc

/-- QCircuit::cCTRL(U, ctrl_dits, target) with classical-control vector and
target vector. Only the target vector is checked for non-emptiness. -/
def cCTRL_mmt (E : Ext) (U : Cmat) (ctrl_dits target : List Nat)
    (nm : String) (qc : QCircuit) : Option Err × QCircuit :=
  match checkDits qc ctrl_dits with
  | some e => (some e, qc)
  | none =>
      if ¬ check_no_duplicates ctrl_dits then (some Err.Duplicates, qc)
      else if target.length = 0 then (some Err.ZeroSize, qc)
      else match checkTargets qc target with
      | some e => (some e, qc)
      | none =>
          if ¬ check_no_duplicates target then (some Err.Duplicates, qc)
          else if ¬ check_square_mat U then (some Err.MatrixNotSquare, qc)
          else if U.rows ≠ qc.d then (some Err.DimsMismatchMatrix, qc)
          else emitGate E U GateType.MULTIPLE_cCTRL_MULTIPLE_TARGET
            ctrl_dits target (resolveNameCCTRL E U nm) 1 qc

/-- QCircuit::cCTRL_custom(U, ctrl_dits, target): the joint custom
classically-controlled gate. -/
def cCTRL_custom (E : Ext) (U : Cmat) (ctrl_dits target : List Nat)
    (nm : String) (qc : QCircuit) : Option Err × QCircuit :=
  match checkDits qc ctrl_dits with
  | some e => (some e, qc)
  | none =>
      if ¬ check_no_duplicates ctrl_dits then (some Err.Duplicates, qc)
      else if target.length = 0 then (some Err.ZeroSize, qc)
      else match checkTargets qc target with
      | some e => (some e, qc)
      | none =>
          if ¬ check_no_duplicates target then (some Err.Duplicates, qc)
          else if ¬ check_square_mat U then (some Err.MatrixNotSquare, qc)
          else if U.rows ≠ qc.d ^ target.length then
            (some Err.DimsMismatchMatrix, qc)
          else emitGate E U GateType.CUSTOM_cCTRL ctrl_dits target
            (resolveNameCCTRL E U nm) 1 qc

/-- QCircuit::measureZ(target, c_reg): computational-basis measurement of a
single qudit; marks the target measured and appends a MEASUREMENT step. -/
def measureZ (target c_reg : Nat) (nm : String) (qc : QCircuit) :
    Option Err × QCircuit :=
  if target ≥ qc.nq then (some Err.OutOfRange, qc)
  else if c_reg ≥ qc.nc then (some Err.OutOfRange, qc)
  else if getMeasured qc target then (some Err.QuditAlreadyMeasured, qc)
  else
    (none, { qc with
               measured := qc.measured.set target true
               measurements := qc.measurements ++
                 [⟨MeasureType.MEASURE_Z, [], [target], c_reg,
                   if nm = strEmpty then strZ else nm⟩]
               step_types := qc.step_types ++ [StepType.MEASUREMENT]
               measurement_count := bumpCount qc.measurement_count
                 (if nm = strEmpty then strZ else nm) 1 })

/-- QCircuit::measureV(V, target, c_reg): single-qudit measurement in the
basis given by the columns of V. -/
def measureV (E : Ext) (V : Cmat) (target c_reg : Nat) (nm : String)
    (qc : QCircuit) : Option Err × QCircuit :=
  if target ≥ qc.nq then (some Err.OutOfRange, qc)
  else if c_reg ≥ qc.nc then (some Err.OutOfRange, qc)
  else if getMeasured qc target then (some Err.QuditAlreadyMeasured, qc)
  else
    (none, { qc with
               measured := qc.measured.set target true
               measurements := qc.measurements ++
                 [⟨MeasureType.MEASURE_V, [E.hash_eigen V], [target], c_reg,
                   resolveName E V nm⟩]
               step_types := qc.step_types ++ [StepType.MEASUREMENT]
               measurement_count := bumpCount qc.measurement_count
                 (resolveName E V nm) 1 })

/-- QCircuit::measureV(V, target, c_reg) on a target vector: joint
measurement marking every target measured. The source re-runs a second,
redundant already-measured loop after the c_reg check; it is mirrored. -/
def measureV_many (E : Ext) (V : Cmat) (target : List Nat) (c_reg : Nat)
    (nm : String) (qc : QCircuit) : Option Err × QCircuit :=
  if target.length = 0 then (some Err.ZeroSize, qc)
  else match checkTargets qc target with
  | some e => (some e, qc)
  | none =>
      if ¬ check_no_duplicates target then (some Err.Duplicates, qc)
      else if c_reg ≥ qc.nc then (some Err.OutOfRange, qc)
      else if target.any (fun t => getMeasured qc t) then
        (some Err.QuditAlreadyMeasured, qc)
      else
        (none, { qc with
                   measured := target.foldl (fun m t => m.set t true)
                     qc.measured
                   measurements := qc.measurements ++
                     [⟨MeasureType.MEASURE_V_MANY, [E.hash_eigen V], target,
                       c_reg, resolveName E V nm⟩]
                   step_types := qc.step_types ++ [StepType.MEASUREMENT]
                   measurement_count := bumpCount qc.measurement_count
                     (resolveName E V nm) 1 })

/-- SENTINEL_MEASURED: static_cast of -1 to the 64-bit unsigned index type,
the wraparound maximum marking a measured qudit in subsys. -/
def SENTINEL : Nat := 2 ^ 64 - 1

/-- The 64-bit wraparound decrement performed by the decrement operator on
an unsigned index. -/
def decWrap (x : Nat) : Nat := (x + (2 ^ 64 - 1)) % 2 ^ 64

/-- Pointwise write into the subsys array, embedded as a function update. -/
def updF (s : Nat → Nat) (m v : Nat) : Nat → Nat :=
  fun j => if j = m then v else s j

/-- The relabelling loop of QEngine::set_measured_: for m running over the
given index list, a qudit that is not marked measured has its relative index
decremented (with 64-bit wraparound). -/
def setMeasuredLoop (s : Nat → Nat) (ms : List Nat) : Nat → Nat :=
  ms.foldl (fun s m => if s m = SENTINEL then s else updF s m (decWrap (s m)))
    s

/-- QEngine::set_measured_(i): fails when qudit i is already marked
measured; otherwise writes the sentinel at i and runs the relabelling loop
for m from i up to nq - 1. -/
def set_measured (nq : Nat) (s : Nat → Nat) (i : Nat) :
    Except Err (Nat → Nat) :=
  if s i = SENTINEL then Except.error Err.QuditAlreadyMeasured
  else Except.ok (setMeasuredLoop (updF s i SENTINEL) (List.range' i (nq - i)))

/-- QEngine::get_relative_pos_(v): maps each original index to its relative
position read from subsys, failing on the first already-measured index. -/
def get_relative_pos (s : Nat → Nat) : List Nat → Except Err (List Nat)
  | [] => Except.ok []
  | x :: xs =>
      if s x = SENTINEL then Except.error Err.QuditAlreadyMeasured
      else match get_relative_pos s xs with
        | Except.error e => Except.error e
        | Except.ok rest => Except.ok (s x :: rest)

/-- The live state of a QEngine: the state vector and the per-measurement
probabilities are external values of abstract types; the classical dits are
a vector of nc values and subsys maps each original qudit index to its
relative position or the sentinel. -/
structure EngineState (Ψ P : Type) where
  psi : Ψ
  dits : List Nat
  probs : List P
  subsys : Nat → Nat

/-- Modelled from the spec: the external linear-algebra primitives consumed
as black boxes by QEngine::execute: apply, applyCTRL and the matrix power
powm. -/
structure GateSem (Ψ : Type) where
  apply : Ψ → Cmat → List Nat → Nat → Ψ
  applyCTRL : Ψ → Cmat → List Nat → List Nat → Nat → Ψ
  powm : Cmat → Nat → Cmat

/-- Reading h_tbl[hash] on the engine's copy of the cache: the stored matrix
when the digest is present, a default-constructed matrix otherwise. -/
def tblGet (tbl : Cache) (h : Nat) : Cmat :=
  (cacheFind tbl h).getD default

/-- The classical-control agreement loop of QEngine::execute: runs over the
ctrl dit indexes and reports false as soon as one stored dit differs from
the first one. -/
def cAllEq (dits : List Nat) : List Nat → Nat → Bool
  | [], _ => true
  | c :: cs, first =>
      if dits.getD c 0 ≠ first then false else cAllEq dits cs first

/-- The quantum-controlled branch of the gate dispatch: resolve the
controls' relative positions (failing when one is measured) and call
applyCTRL. -/
def execCtrlBranch (S : GateSem Ψ) (d : Nat) (tbl : Cache)
    (st : EngineState Ψ P) (g : GateStep) (target_rel : List Nat) :
    Except Err (EngineState Ψ P) :=
  match get_relative_pos st.subsys g.ctrl with
  | Except.error e => Except.error e
  | Except.ok ctrl_rel =>
      Except.ok { st with
        psi := S.applyCTRL st.psi (tblGet tbl g.gate_hash) ctrl_rel
          target_rel d }

/-- The classically-controlled branch of the gate dispatch: with no
classical dits, U is applied unconditionally; otherwise the first control
dit value is read and, when every control dit agrees with it, U raised to
that value is applied; otherwise nothing happens. -/
def execCCtrlBranch (S : GateSem Ψ) (d : Nat) (tbl : Cache)
    (st : EngineState Ψ P) (g : GateStep) (target_rel : List Nat) :
    EngineState Ψ P :=
  if st.dits.length = 0 then
    { st with psi := S.apply st.psi (tblGet tbl g.gate_hash) target_rel d }
  else
    if cAllEq st.dits g.ctrl (st.dits.getD (g.ctrl.getD 0 0) 0) then
      { st with
        psi := S.apply st.psi
          (S.powm (tblGet tbl g.gate_hash) (st.dits.getD (g.ctrl.getD 0 0) 0))
          target_rel d }
    else st

/-- The gate-step dispatch of QEngine::execute: computes the targets'
relative positions, then branches on the gate type; plain gates apply U
jointly, FAN applies U to each target in turn, quantum-controlled gates
(QFT and TFQ share this branch in the source) resolve the controls and call
applyCTRL, and classically-controlled gates apply U unconditionally when
the dits vector is empty, apply U to the power of the common dit value when
every control dit agrees, and do nothing otherwise. -/
def executeGateStep (S : GateSem Ψ) (d : Nat) (tbl : Cache)
    (st : EngineState Ψ P) (g : GateStep) :
    Except Err (EngineState Ψ P) :=
  match get_relative_pos st.subsys g.target with
  | Except.error e => Except.error e
  | Except.ok target_rel =>
    match g.gate_type with
    | GateType.NONE => Except.ok st
    | GateType.SINGLE =>
        Except.ok { st with
          psi := S.apply st.psi (tblGet tbl g.gate_hash) target_rel d }
    | GateType.TWO =>
        Except.ok { st with
          psi := S.apply st.psi (tblGet tbl g.gate_hash) target_rel d }
    | GateType.THREE =>
        Except.ok { st with
          psi := S.apply st.psi (tblGet tbl g.gate_hash) target_rel d }
    | GateType.CUSTOM =>
        Except.ok { st with
          psi := S.apply st.psi (tblGet tbl g.gate_hash) target_rel d }
    | GateType.FAN =>
        Except.ok { st with
          psi := target_rel.foldl
            (fun p t => S.apply p (tblGet tbl g.gate_hash) [t] d) st.psi }
    | GateType.QFT => execCtrlBranch S d tbl st g target_rel
    | GateType.TFQ => execCtrlBranch S d tbl st g target_rel
    | GateType.SINGLE_CTRL_SINGLE_TARGET =>
        execCtrlBranch S d tbl st g target_rel
    | GateType.SINGLE_CTRL_MULTIPLE_TARGET =>
        execCtrlBranch S d tbl st g target_rel
    | GateType.MULTIPLE_CTRL_SINGLE_TARGET =>
        execCtrlBranch S d tbl st g target_rel
    | GateType.MULTIPLE_CTRL_MULTIPLE_TARGET =>
        execCtrlBranch S d tbl st g target_rel
    | GateType.CUSTOM_CTRL => execCtrlBranch S d tbl st g target_rel
    | GateType.SINGLE_cCTRL_SINGLE_TARGET =>
        Except.ok (execCCtrlBranch S d tbl st g target_rel)
    | GateType.SINGLE_cCTRL_MULTIPLE_TARGET =>
        Except.ok (execCCtrlBranch S d tbl st g target_rel)
    | GateType.MULTIPLE_cCTRL_SINGLE_TARGET =>
        Except.ok (execCCtrlBranch S d tbl st g target_rel)
    | GateType.MULTIPLE_cCTRL_MULTIPLE_TARGET =>
        Except.ok (execCCtrlBranch S d tbl st g target_rel)
    | GateType.CUSTOM_cCTRL =>
        Except.ok (execCCtrlBranch S d tbl st g target_rel)

/-- QEngine::get_dit(i): the validity check only rejects i strictly greater
than nc; the access into the dits vector is embedded bounds-aware, yielding
none when the index is out of bounds. -/
def get_dit (nc : Nat) (dits : List Nat) (i : Nat) :
    Except Err (Option Nat) :=
  if i > nc then Except.error Err.OutOfRange
  else Except.ok (dits.get? i)

/-- QEngine::set_dit(i, value): the validity check only rejects i strictly
greater than nc; the write into the dits vector is embedded bounds-aware,
yielding none when the index is out of bounds. -/
def set_dit (nc : Nat) (dits : List Nat) (i v : Nat) :
    Except Err (Option (List Nat)) :=
  if i > nc then Except.error Err.OutOfRange
  else Except.ok (if i < dits.length then some (dits.set i v) else none)

/-- A concrete instance of the external services, used to evaluate the
embedding on closed inputs: an empty catalog, the entry count as digest and
structural equality of matrices. -/
def E0 : Ext :=
  ⟨fun _ => strEmpty, fun U => U.entries.length, fun a b => a == b⟩

/-- A concrete 2 by 2 matrix. -/
def U0 : Cmat := ⟨2, 2, [1, 0, 0, 1]⟩

/-- A second concrete 2 by 2 matrix with different content than U0. -/
def Ux : Cmat := ⟨2, 2, [0, 1, 1, 0]⟩

/-- A concrete fresh circuit with nq = 2, nc = 2, d = 2, as produced by the
QCircuit constructor. -/
def qc0 : QCircuit :=
  ⟨2, 2, 2, strEmpty, [false, false], [], [], [], [], [], []⟩

/-- A concrete gate semantics over natural-number states, used to evaluate
the engine embedding on closed inputs. -/
def S0 : GateSem Nat :=
  ⟨fun p _ _ _ => p + 1, fun p _ _ _ _ => p + 2, fun U _ => U⟩

/-- A concrete engine state: psi is the number 0, two classical dits both
holding 1, no probabilities, identity relabelling. -/
def st0 : EngineState Nat Nat := ⟨0, [1, 1], [], fun j => j⟩

/-- A concrete classically-controlled gate step over both dits targeting
qudit 0. -/
def g0 : GateStep :=
  ⟨GateType.SINGLE_cCTRL_SINGLE_TARGET, 0, [0, 1], [0], strEmpty⟩

/-- The per-name accounting contract of a successful gate builder call: one
GATE tag appended, one gate step appended, the counter of the derived name
advanced by k and every other name's counter untouched. -/
def GateCountOk (qc qc' : QCircuit) (name : String) (k : Nat) : Prop :=
  qc'.step_types = qc.step_types ++ [StepType.GATE] ∧
  qc'.gates.length = qc.gates.length + 1 ∧
  lookupCountD qc'.count name = lookupCountD qc.count name + k ∧
  ∀ nm', nm' ≠ name → lookupCountD qc'.count nm' = lookupCountD qc.count nm'

/-! Helper lemmas about the engine relabelling loop. -/

theorem updF_same (s : Nat → Nat) (m v : Nat) : updF s m v m = v := by
  simp [updF]

theorem updF_other (s : Nat → Nat) (m v k : Nat) (h : k ≠ m) :
    updF s m v k = s k := by
  simp [updF, h]

theorem setMeasuredLoop_cons (s : Nat → Nat) (m : Nat) (ms : List Nat) :
    setMeasuredLoop s (m :: ms) =
      setMeasuredLoop
        (if s m = SENTINEL then s else updF s m (decWrap (s m))) ms := rfl

theorem setMeasuredLoop_not_mem (ms : List Nat) (s : Nat → Nat) (k : Nat)
    (hk : k ∉ ms) : setMeasuredLoop s ms k = s k := by
  induction ms generalizing s with
  | nil => rfl
  | cons m ms ih =>
      have hkm : k ≠ m := fun h => hk (h ▸ List.mem_cons_self m ms)
      have hk' : k ∉ ms := fun h => hk (List.mem_cons_of_mem _ h)
      rw [setMeasuredLoop_cons, ih _ hk']
      split
      · rfl
      · exact updF_other _ _ _ _ hkm

theorem setMeasuredLoop_mem (ms : List Nat) (s : Nat → Nat) (k : Nat)
    (hnd : ms.Nodup) (hk : k ∈ ms) :
    setMeasuredLoop s ms k =
      if s k = SENTINEL then s k else decWrap (s k) := by
  induction ms generalizing s with
  | nil => cases hk
  | cons m ms ih =>
      have hmms : m ∉ ms := (List.nodup_cons.mp hnd).1
      have hnd' : ms.Nodup := (List.nodup_cons.mp hnd).2
      rw [setMeasuredLoop_cons]
      rcases List.mem_cons.mp hk with hkm | hkms
      · subst hkm
        rw [setMeasuredLoop_not_mem _ _ _ hmms]
        split
        · simp [*]
        · rw [updF_same]
      · have hkm : k ≠ m := fun h => hmms (h ▸ hkms)
        rw [ih _ hnd' hkms]
        split
        · rfl
        · rw [updF_other _ _ _ _ hkm]

theorem decWrap_eq_sub_one {x : Nat} (hx : 0 < x) (hlt : x < 2 ^ 64) :
    decWrap x = x - 1 := by
  unfold decWrap
  have h : x + (2 ^ 64 - 1) = (x - 1) + 2 ^ 64 := by omega
  rw [h, Nat.add_mod_right]
  exact Nat.mod_eq_of_lt (by omega)

/-- C1: for QEngine::set_measured_ called on a not-yet-measured original
qudit index i (with in-range i and 64-bit subsys entries): the call
succeeds; afterwards subsys at i equals the sentinel SENTINEL (the
wraparound maximum of the index type) and the sentinel entry is not itself
decremented; every still-live qudit m greater than i has its subsys entry
decremented by exactly 1; and the subsys entry is unchanged for every other
qudit: live m below i, any previously measured m (which keeps the
sentinel), and any m at or beyond nq. -/
theorem set_measured_spec (nq : Nat) (s : Nat → Nat) (i : Nat)
    (hi : i < nq) (hlive : s i ≠ SENTINEL)
    (hbound : ∀ m, m < nq → s m < 2 ^ 64) :
    ∃ s', set_measured nq s i = Except.ok s' ∧
      s' i = SENTINEL ∧
      (∀ m, i < m → m < nq → s m ≠ SENTINEL →
        s' m = decWrap (s m) ∧ (0 < s m → s' m = s m - 1)) ∧
      (∀ m, m < i → s' m = s m) ∧
      (∀ m, m ≠ i → s m = SENTINEL → s' m = SENTINEL) ∧
      (∀ m, nq ≤ m → m ≠ i → s' m = s m) := by
  have hrange : ∀ m, m ∈ List.range' i (nq - i) ↔ i ≤ m ∧ m < nq := by
    intro m
    rw [List.mem_range'_1]
    omega
  have hnd : (List.range' i (nq - i)).Nodup := List.nodup_range' i (nq - i)
  refine ⟨setMeasuredLoop (updF s i SENTINEL) (List.range' i (nq - i)),
    ?_, ?_, ?_, ?_, ?_, ?_⟩
  · unfold set_measured
    rw [if_neg hlive]
  · have hmem : i ∈ List.range' i (nq - i) := (hrange i).mpr ⟨le_refl i, hi⟩
    rw [setMeasuredLoop_mem _ _ _ hnd hmem, updF_same, if_pos rfl]
  · intro m him hm hlm
    have hmem : m ∈ List.range' i (nq - i) :=
      (hrange m).mpr ⟨Nat.le_of_lt him, hm⟩
    have hne : m ≠ i := Nat.ne_of_gt him
    have hupd : updF s i SENTINEL m = s m := updF_other _ _ _ _ hne
    rw [setMeasuredLoop_mem _ _ _ hnd hmem, hupd, if_neg hlm]
    exact ⟨rfl, fun hpos =>
      decWrap_eq_sub_one hpos (hbound m hm)⟩
  · intro m hmi
    have hnm : m ∉ List.range' i (nq - i) := fun h => by
      have := (hrange m).mp h
      omega
    rw [setMeasuredLoop_not_mem _ _ _ hnm,
      updF_other _ _ _ _ (Nat.ne_of_lt hmi)]
  · intro m hne hsent
    have hupd : updF s i SENTINEL m = s m := updF_other _ _ _ _ hne
    by_cases hmem : m ∈ List.range' i (nq - i)
    · rw [setMeasuredLoop_mem _ _ _ hnd hmem, hupd, if_pos hsent]
      exact hsent
    · rw [setMeasuredLoop_not_mem _ _ _ hmem, hupd]
      exact hsent
  · intro m hm hne
    have hnm : m ∉ List.range' i (nq - i) := fun h => by
      have := (hrange m).mp h
      omega
    rw [setMeasuredLoop_not_mem _ _ _ hnm, updF_other _ _ _ _ hne]

/-- Witness for C1: a three-qudit engine with the identity relabelling,
measuring qudit 1: the call succeeds, writes the sentinel at 1, decrements
the live qudit 2 to 1 and keeps qudit 0 at 0. -/
theorem set_measured_spec_witness :
    ∃ s', set_measured 3 (fun j => j) 1 = Except.ok s' ∧
      s' 1 = SENTINEL ∧
      (∀ m, 1 < m → m < 3 → (fun j => j) m ≠ SENTINEL →
        s' m = decWrap ((fun j => j) m) ∧
          (0 < (fun j => j) m → s' m = (fun j => j) m - 1)) ∧
      (∀ m, m < 1 → s' m = (fun j => j) m) ∧
      (∀ m, m ≠ 1 → (fun j => j) m = SENTINEL → s' m = SENTINEL) ∧
      (∀ m, 3 ≤ m → m ≠ 1 → s' m = (fun j => j) m) :=
  set_measured_spec 3 (fun j => j) 1 (by decide) (by decide)
    (fun m hm => by show m < 2 ^ 64; omega)

/-- C8: QCircuit::QFT, QCircuit::TFQ and both get_gate_depth overloads fail
with NotImplemented on every input, and QFT and TFQ leave the circuit (its
gates, measurements, step tags, counters and cache) exactly unchanged. -/
theorem notImplemented_spec :
    (∀ target swap qc,
      QFT target swap qc = (some Err.NotImplemented, qc)) ∧
    (∀ target swap qc,
      TFQ target swap qc = (some Err.NotImplemented, qc)) ∧
    (∀ qc, get_gate_depth qc = Except.error Err.NotImplemented) ∧
    (∀ qc nm, get_gate_depth_name qc nm = Except.error Err.NotImplemented) :=
  ⟨fun _ _ _ => rfl, fun _ _ _ => rfl, fun _ => rfl, fun _ _ => rfl⟩

/-- C9: QEngine::get_dit and QEngine::set_dit reject an index with
OutOfRange exactly when it is strictly greater than nc; the boundary index
i = nc passes the check even though the dits vector has length nc, so the
subsequent access into dits is out of bounds (none) rather than
rejected. -/
theorem dit_boundary_spec (nc : Nat) (dits : List Nat) (i v : Nat)
    (hlen : dits.length = nc) :
    (get_dit nc dits i = Except.error Err.OutOfRange ↔ i > nc) ∧
    (set_dit nc dits i v = Except.error Err.OutOfRange ↔ i > nc) ∧
    (i = nc → get_dit nc dits i = Except.ok none) ∧
    (i = nc → set_dit nc dits i v = Except.ok none) := by
  refine ⟨?_, ?_, ?_, ?_⟩
  · unfold get_dit
    split
    · simp [*]
    · simp
      omega
  · unfold set_dit
    split
    · simp [*]
    · simp
      omega
  · intro hieq
    subst hieq
    unfold get_dit
    rw [if_neg (by omega)]
    rw [List.get?_eq_none.mpr (by omega)]
  · intro hieq
    subst hieq
    unfold set_dit
    rw [if_neg (by omega), if_neg (by omega)]

/-- Witness for C9: with nc = 2 and dits of length 2, index 3 is rejected
while the boundary index 2 passes the check and reads out of bounds. -/
theorem dit_boundary_spec_witness :
    (get_dit 2 [5, 6] 2 = Except.error Err.OutOfRange ↔ 2 > 2) ∧
    (set_dit 2 [5, 6] 2 9 = Except.error Err.OutOfRange ↔ 2 > 2) ∧
    (2 = 2 → get_dit 2 [5, 6] 2 = Except.ok none) ∧
    (2 = 2 → set_dit 2 [5, 6] 2 9 = Except.ok none) :=
  dit_boundary_spec 2 [5, 6] 2 9 (by decide)

/-- C4: for the matrix-cache insert add_hash_ with an entry (h, U) already
stored: adding a matrix U2 with the same digest whose content the equality
predicate rejects fails with the hash-collision error, and the cache is not
touched (in particular it still maps h to U); adding a U2 the predicate
accepts succeeds and returns the cache itself, so the stored content for h
is unchanged. -/
theorem add_hash_spec (E : Ext) (U U2 : Cmat) (h : Nat) (tbl : Cache)
    (hfound : cacheFind tbl h = some U) :
    (E.equal_eigen U U2 = false →
      add_hash E U2 h tbl = Except.error Err.HashCollision) ∧
    (E.equal_eigen U U2 = true →
      add_hash E U2 h tbl = Except.ok tbl ∧ cacheFind tbl h = some U) := by
  have hsome : (tbl.find? (fun p => p.1 == h)).isSome := by
    unfold cacheFind at hfound
    rcases Option.map_eq_some'.mp hfound with ⟨p, hp, hpv⟩
    rw [hp]
    rfl
  constructor
  · intro hne
    unfold add_hash
    rw [hfound]
    simp [hne]
  · intro heq
    refine ⟨?_, hfound⟩
    simp [add_hash, cacheInsert, hfound, heq, hsome]

/-- Witness for C4: a one-entry cache holding U0 under digest 7: adding Ux
under digest 7 collides, adding U0 again succeeds without change. -/
theorem add_hash_spec_witness :
    (E0.equal_eigen U0 Ux = false →
      add_hash E0 Ux 7 [(7, U0)] = Except.error Err.HashCollision) ∧
    (E0.equal_eigen U0 U0 = true →
      add_hash E0 U0 7 [(7, U0)] = Except.ok [(7, U0)] ∧
        cacheFind [(7, U0)] 7 = some U0) :=
  ⟨(add_hash_spec E0 U0 Ux 7 [(7, U0)] (by decide)).1,
   (add_hash_spec E0 U0 U0 7 [(7, U0)] (by decide)).2⟩

theorem cAllEq_iff (dits ctrl : List Nat) (first : Nat) :
    cAllEq dits ctrl first = true ↔ ∀ c ∈ ctrl, dits.getD c 0 = first := by
  induction ctrl with
  | nil => simp [cAllEq]
  | cons c cs ih =>
      simp only [cAllEq]
      by_cases hc : dits.getD c 0 = first
      · rw [if_neg (fun h => h hc), ih]
        constructor
        · intro h a ha
          rcases List.mem_cons.mp ha with h1 | h1
          · rw [h1]
            exact hc
          · exact h a h1
        · intro h a ha
          exact h a (List.mem_cons_of_mem _ ha)
      · rw [if_pos hc]
        constructor
        · intro h
          exact absurd h Bool.false_ne_true
        · intro h
          exact absurd (h c (List.mem_cons_self c cs)) hc

/-- C3: when QEngine::execute runs a classically-controlled gate step (any
of the five cCTRL gate types) whose target resolves to the relative
positions tr: with an empty dits vector U is applied unconditionally to tr;
with a non-empty dits vector and first the dit stored at the first control
index, if every control dit equals first then U raised to the matrix power
first is applied to tr, and if some control dit differs the engine state
(in particular psi) is left unchanged. -/
theorem execute_cctrl_spec (S : GateSem Ψ) (d : Nat) (tbl : Cache)
    (st : EngineState Ψ P) (g : GateStep) (tr : List Nat)
    (hgt : g.gate_type = GateType.SINGLE_cCTRL_SINGLE_TARGET ∨
      g.gate_type = GateType.SINGLE_cCTRL_MULTIPLE_TARGET ∨
      g.gate_type = GateType.MULTIPLE_cCTRL_SINGLE_TARGET ∨
      g.gate_type = GateType.MULTIPLE_cCTRL_MULTIPLE_TARGET ∨
      g.gate_type = GateType.CUSTOM_cCTRL)
    (htr : get_relative_pos st.subsys g.target = Except.ok tr) :
    (st.dits = [] →
      executeGateStep S d tbl st g = Except.ok { st with
        psi := S.apply st.psi (tblGet tbl g.gate_hash) tr d }) ∧
    (st.dits ≠ [] →
      ((∀ c ∈ g.ctrl,
          st.dits.getD c 0 = st.dits.getD (g.ctrl.getD 0 0) 0) →
        executeGateStep S d tbl st g = Except.ok { st with
          psi := S.apply st.psi
            (S.powm (tblGet tbl g.gate_hash)
              (st.dits.getD (g.ctrl.getD 0 0) 0)) tr d }) ∧
      ((∃ c ∈ g.ctrl,
          st.dits.getD c 0 ≠ st.dits.getD (g.ctrl.getD 0 0) 0) →
        executeGateStep S d tbl st g = Except.ok st)) := by
  have hred : executeGateStep S d tbl st g =
      Except.ok (execCCtrlBranch S d tbl st g tr) := by
    rcases hgt with h | h | h | h | h <;>
      simp only [executeGateStep, htr, h]
  rw [hred]
  refine ⟨?_, ?_⟩
  · intro hd
    unfold execCCtrlBranch
    rw [if_pos (by simp [hd])]
  · intro hd
    have hlen : ¬ st.dits.length = 0 := by
      simpa [List.length_eq_zero] using hd
    constructor
    · intro hall
      unfold execCCtrlBranch
      rw [if_neg hlen, if_pos ((cAllEq_iff _ _ _).mpr hall)]
    · intro hex
      unfold execCCtrlBranch
      rw [if_neg hlen, if_neg ?_]
      intro hcontra
      rcases hex with ⟨c, hc, hne⟩
      exact hne ((cAllEq_iff _ _ _).mp hcontra c hc)

/-- Witness for C3: on the concrete engine state st0 whose two control dits
agree on the value 1, the classically-controlled step fires and applies the
matrix power. -/
theorem execute_cctrl_spec_witness :
    st0.dits ≠ [] ∧
    (∀ c ∈ g0.ctrl,
      st0.dits.getD c 0 = st0.dits.getD (g0.ctrl.getD 0 0) 0) ∧
    executeGateStep S0 2 [] st0 g0 = Except.ok { st0 with
      psi := S0.apply st0.psi
        (S0.powm (tblGet [] g0.gate_hash)
          (st0.dits.getD (g0.ctrl.getD 0 0) 0)) [0] 2 } :=
  ⟨by decide, by decide,
    ((execute_cctrl_spec S0 2 [] st0 g0 [0] (Or.inl rfl) rfl).2
      (by decide)).1 (by decide)⟩

/-- C7: the no-target-list overload gate_fan(U) called on a circuit whose
qudits are all measured succeeds (given a collision-free cache insert) and
appends a FAN step with an empty target list; and executing any FAN step
with an empty target list leaves the whole engine state (psi, dits, probs,
subsys) unchanged. -/
theorem gate_fan_all_measured_spec (E : Ext) (U : Cmat) (nm : String)
    (qc : QCircuit) (tbl : Cache) (S : GateSem Ψ) (d : Nat) (etbl : Cache)
    (st : EngineState Ψ P)
    (hall : ∀ i, i < qc.nq → getMeasured qc i = true)
    (hsq : check_square_mat U = true) (hdim : U.rows = qc.d)
    (hadd : add_hash E U (E.hash_eigen U) qc.cache = Except.ok tbl) :
    gate_fan_all E U nm qc = (none, { qc with
      cache := tbl
      gates := qc.gates ++
        [⟨GateType.FAN, E.hash_eigen U, [], [], resolveName E U nm⟩]
      step_types := qc.step_types ++ [StepType.GATE]
      count := bumpCount qc.count (resolveName E U nm) 0 }) ∧
    (∀ g : GateStep, g.gate_type = GateType.FAN → g.target = [] →
      executeGateStep S d etbl st g = Except.ok st) := by
  have hnone : get_non_measured qc = [] := by
    unfold get_non_measured
    rw [List.filter_eq_nil]
    intro a ha
    simp [hall a (List.mem_range.mp ha)]
  constructor
  · unfold gate_fan_all
    rw [if_neg (by simp [hsq]), if_neg (by simp [hdim]), hnone]
    unfold emitGate
    rw [hadd]
    rfl
  · intro g hft htg
    simp only [executeGateStep, htg, hft, get_relative_pos]
    rfl

/-- Witness for C7: a concrete one-qudit circuit with its only qudit
measured: the overload appends the empty-target FAN step and the engine
treats such a step as a no-op on the state st0. -/
theorem gate_fan_all_measured_spec_witness :
    gate_fan_all E0 U0 strEmpty
        ⟨1, 1, 2, strEmpty, [true], [], [], [], [], [], []⟩ =
      (none, { (⟨1, 1, 2, strEmpty, [true], [], [], [], [], [], []⟩ :
          QCircuit) with
        cache := [(4, U0)]
        gates := [⟨GateType.FAN, E0.hash_eigen U0, [], [],
          resolveName E0 U0 strEmpty⟩]
        step_types := [StepType.GATE]
        count := bumpCount [] (resolveName E0 U0 strEmpty) 0 }) ∧
    (∀ g : GateStep, g.gate_type = GateType.FAN → g.target = [] →
      executeGateStep S0 2 [] st0 g = Except.ok st0) :=
  gate_fan_all_measured_spec E0 U0 strEmpty
    ⟨1, 1, 2, strEmpty, [true], [], [], [], [], [], []⟩ [(4, U0)] S0 2 [] st0
    (by intro i hi; interval_cases i <;> decide) (by decide) (by decide)
    rfl

/-! Helper lemmas about the builder embedding. -/

theorem emitGate_err {E : Ext} {U : Cmat} {gt : GateType}
    {ctrl target : List Nat} {name : String} {k : Nat} {qc qc' : QCircuit}
    {e : Err} (h : emitGate E U gt ctrl target name k qc = (some e, qc')) :
    qc' = qc := by
  unfold emitGate at h
  split at h
  · injection h with h1 h2
    exact h2.symm
  · injection h with h1 h2
    exact Option.noConfusion h1

theorem emitGate_ok {E : Ext} {U : Cmat} {gt : GateType}
    {ctrl target : List Nat} {name : String} {k : Nat} {qc qc' : QCircuit}
    (h : emitGate E U gt ctrl target name k qc = (none, qc')) :
    qc'.nq = qc.nq ∧ qc'.nc = qc.nc ∧ qc'.d = qc.d ∧
    qc'.measured = qc.measured ∧
    qc'.gates = qc.gates ++ [⟨gt, E.hash_eigen U, ctrl, target, name⟩] ∧
    qc'.measurements = qc.measurements ∧
    qc'.step_types = qc.step_types ++ [StepType.GATE] ∧
    qc'.count = bumpCount qc.count name k ∧
    qc'.measurement_count = qc.measurement_count := by
  unfold emitGate at h
  split at h
  · injection h with h1 h2
    exact Option.noConfusion h1
  · injection h with h1 h2
    subst h2
    exact ⟨rfl, rfl, rfl, rfl, rfl, rfl, rfl, rfl, rfl⟩

theorem emitGate_measured (E : Ext) (U : Cmat) (gt : GateType)
    (ctrl target : List Nat) (name : String) (k : Nat) (qc : QCircuit) :
    (emitGate E U gt ctrl target name k qc).2.measured = qc.measured := by
  unfold emitGate
  split
  · rfl
  · rfl

theorem checkTargets_none {qc : QCircuit} {ts : List Nat}
    (h : checkTargets qc ts = none) :
    ∀ t ∈ ts, t < qc.nq ∧ getMeasured qc t = false := by
  induction ts with
  | nil =>
      intro t ht
      cases ht
  | cons a as ih =>
      unfold checkTargets at h
      by_cases h1 : a ≥ qc.nq
      · rw [if_pos h1] at h
        cases h
      · rw [if_neg h1] at h
        by_cases h2 : getMeasured qc a = true
        · rw [if_pos h2] at h
          cases h
        · rw [if_neg h2] at h
          intro t ht
          rcases List.mem_cons.mp ht with h3 | h3
          · rw [h3]
            exact ⟨by omega, by simpa using h2⟩
          · exact ih h t h3

theorem checkTargets_eq_none {qc : QCircuit} {ts : List Nat}
    (h : ∀ t ∈ ts, t < qc.nq ∧ getMeasured qc t = false) :
    checkTargets qc ts = none := by
  induction ts with
  | nil => rfl
  | cons a as ih =>
      obtain ⟨ha1, ha2⟩ := h a (List.mem_cons_self a as)
      unfold checkTargets
      rw [if_neg (by omega), if_neg (by simp [ha2])]
      exact ih (fun t ht => h t (List.mem_cons_of_mem _ ht))

theorem checkDits_none {qc : QCircuit} {cs : List Nat}
    (h : checkDits qc cs = none) : ∀ c ∈ cs, c < qc.nc := by
  induction cs with
  | nil =>
      intro c hc
      cases hc
  | cons a as ih =>
      unfold checkDits at h
      by_cases h1 : a ≥ qc.nc
      · rw [if_pos h1] at h
        cases h
      · rw [if_neg h1] at h
        intro c hc
        rcases List.mem_cons.mp hc with h3 | h3
        · rw [h3]
          omega
        · exact ih h c h3

theorem checkDits_eq_none {qc : QCircuit} {cs : List Nat}
    (h : ∀ c ∈ cs, c < qc.nc) : checkDits qc cs = none := by
  induction cs with
  | nil => rfl
  | cons a as ih =>
      unfold checkDits
      rw [if_neg (by have := h a (List.mem_cons_self a as); omega)]
      exact ih (fun c hc => h c (List.mem_cons_of_mem _ hc))

theorem lookupCountD_cons_same {n : String} {v : Nat}
    {m : List (String × Nat)} : lookupCountD ((n, v) :: m) n = v := by
  unfold lookupCountD lookupCount
  rw [List.find?_cons_of_pos _ (by simp)]
  rfl

theorem lookupCountD_cons_diff {n n' : String} {v : Nat}
    {m : List (String × Nat)} (h : n' ≠ n) :
    lookupCountD ((n, v) :: m) n' = lookupCountD m n' := by
  unfold lookupCountD lookupCount
  rw [List.find?_cons_of_neg _ (by simpa using fun he => h he.symm)]

theorem lookupCountD_bump_same (m : List (String × Nat)) (name : String)
    (k : Nat) :
    lookupCountD (bumpCount m name k) name = lookupCountD m name + k := by
  induction m with
  | nil =>
      show lookupCountD [(name, k)] name = lookupCountD [] name + k
      rw [lookupCountD_cons_same]
      simp [lookupCountD, lookupCount]
  | cons p m ih =>
      obtain ⟨n, v⟩ := p
      unfold bumpCount
      by_cases hn : n = name
      · rw [if_pos hn]
        subst hn
        rw [lookupCountD_cons_same, lookupCountD_cons_same]
      · rw [if_neg hn, lookupCountD_cons_diff (Ne.symm hn),
          lookupCountD_cons_diff (Ne.symm hn), ih]

theorem lookupCountD_bump_other (m : List (String × Nat))
    (name name' : String) (k : Nat) (h : name' ≠ name) :
    lookupCountD (bumpCount m name k) name' = lookupCountD m name' := by
  induction m with
  | nil =>
      show lookupCountD [(name, k)] name' = lookupCountD [] name'
      rw [lookupCountD_cons_diff h]
  | cons p m ih =>
      obtain ⟨n, v⟩ := p
      unfold bumpCount
      by_cases hn : n = name
      · rw [if_pos hn]
        subst hn
        rw [lookupCountD_cons_diff h, lookupCountD_cons_diff h]
      · rw [if_neg hn]
        by_cases hn' : name' = n
        · subst hn'
          rw [lookupCountD_cons_same, lookupCountD_cons_same]
        · rw [lookupCountD_cons_diff hn', lookupCountD_cons_diff hn', ih]

theorem sumCounts_bump (m : List (String × Nat)) (name : String) (k : Nat) :
    ((bumpCount m name k).map (fun p => p.2)).sum =
      (m.map (fun p => p.2)).sum + k := by
  induction m with
  | nil => simp [bumpCount]
  | cons p m ih =>
      obtain ⟨n, v⟩ := p
      unfold bumpCount
      by_cases hn : n = name
      · rw [if_pos hn]
        simp only [List.map_cons, List.sum_cons]
        omega
      · rw [if_neg hn]
        simp only [List.map_cons, List.sum_cons, ih]
        omega

theorem sum_vals_eq_sum_lookup (m : List (String × Nat))
    (hnd : (m.map (fun p => p.1)).Nodup) :
    (m.map (fun p => p.2)).sum =
      (m.map (fun p => lookupCountD m p.1)).sum := by
  induction m with
  | nil => rfl
  | cons p m ih =>
      obtain ⟨n, v⟩ := p
      have hnmem : n ∉ m.map (fun p => p.1) :=
        (List.nodup_cons.mp hnd).1
      have hnd' : (m.map (fun p => p.1)).Nodup :=
        (List.nodup_cons.mp hnd).2
      simp only [List.map_cons, List.sum_cons]
      rw [lookupCountD_cons_same]
      have hmap : m.map (fun p => lookupCountD ((n, v) :: m) p.1) =
          m.map (fun p => lookupCountD m p.1) := by
        apply List.map_congr_left
        intro p hp
        apply lookupCountD_cons_diff
        intro he
        exact hnmem (he ▸ List.mem_map_of_mem _ hp)
      rw [hmap, ih hnd']

/-- C10: every builder operation is atomic on failure: whenever a gate or
measurement builder call ends in an error (any validation failure or a hash
collision), the returned circuit is exactly the circuit before the call;
gates, measurements, step tags, measured flags, counters and cache are all
unchanged. -/
theorem builder_atomicity_spec :
    (∀ E U i nm qc e qc',
      gate1 E U i nm qc = (some e, qc') → qc' = qc) ∧
    (∀ E U i j nm qc e qc',
      gate2 E U i j nm qc = (some e, qc') → qc' = qc) ∧
    (∀ E U i j k nm qc e qc',
      gate3 E U i j k nm qc = (some e, qc') → qc' = qc) ∧
    (∀ E U t nm qc e qc',
      gate_fan E U t nm qc = (some e, qc') → qc' = qc) ∧
    (∀ E U nm qc e qc',
      gate_fan_all E U nm qc = (some e, qc') → qc' = qc) ∧
    (∀ E U t nm qc e qc',
      gate_custom E U t nm qc = (some e, qc') → qc' = qc) ∧
    (∀ t sw qc e qc', QFT t sw qc = (some e, qc') → qc' = qc) ∧
    (∀ t sw qc e qc', TFQ t sw qc = (some e, qc') → qc' = qc) ∧
    (∀ E U c t nm qc e qc',
      CTRL_sst E U c t nm qc = (some e, qc') → qc' = qc) ∧
    (∀ E U c t nm qc e qc',
      CTRL_smt E U c t nm qc = (some e, qc') → qc' = qc) ∧
    (∀ E U c t nm qc e qc',
      CTRL_mst E U c t nm qc = (some e, qc') → qc' = qc) ∧
    (∀ E U c t nm qc e qc',
      CTRL_mmt E U c t nm qc = (some e, qc') → qc' = qc) ∧
    (∀ E U c t nm qc e qc',
      CTRL_custom E U c t nm qc = (some e, qc') → qc' = qc) ∧
    (∀ E U c t nm qc e qc',
      cCTRL_sst E U c t nm qc = (some e, qc') → qc' = qc) ∧
    (∀ E U c t nm qc e qc',
      cCTRL_smt E U c t nm qc = (some e, qc') → qc' = qc) ∧
    (∀ E U c t nm qc e qc',
      cCTRL_mst E U c t nm qc = (some e, qc') → qc' = qc) ∧
    (∀ E U c t nm qc e qc',
      cCTRL_mmt E U c t nm qc = (some e, qc') → qc' = qc) ∧
    (∀ E U c t nm qc e qc',
      cCTRL_custom E U c t nm qc = (some e, qc') → qc' = qc) ∧
    (∀ t c nm qc e qc',
      measureZ t c nm qc = (some e, qc') → qc' = qc) ∧
    (∀ E V t c nm qc e qc',
      measureV E V t c nm qc = (some e, qc') → qc' = qc) ∧
    (∀ E V t c nm qc e qc',
      measureV_many E V t c nm qc = (some e, qc') → qc' = qc) := by
  refine ⟨?_, ?_, ?_, ?_, ?_, ?_, ?_, ?_, ?_, ?_, ?_, ?_, ?_, ?_, ?_, ?_,
    ?_, ?_, ?_, ?_, ?_⟩
  all_goals intros
  all_goals rename_i h
  all_goals simp only [gate1, gate2, gate3, gate_fan, gate_fan_all,
    gate_custom, QFT, TFQ, CTRL_sst, CTRL_smt, CTRL_mst, CTRL_mmt,
    CTRL_custom, cCTRL_sst, cCTRL_smt, cCTRL_mst, cCTRL_mmt, cCTRL_custom,
    measureZ, measureV, measureV_many] at h
  all_goals repeat' split at h
  all_goals first
    | exact emitGate_err h
    | (injection h with h1 h2
       first
         | exact h2.symm
         | exact Option.noConfusion h1)

/-- Witness for C10: the two-qudit gate builder called with an out-of-range
second index fails and hands back the original circuit qc0. -/
theorem builder_atomicity_spec_witness :
    (gate2 E0 U0 0 5 strEmpty qc0).2 = qc0 :=
  builder_atomicity_spec.2.1 E0 U0 0 5 strEmpty qc0 Err.OutOfRange
    (gate2 E0 U0 0 5 strEmpty qc0).2 rfl

theorem gateCountOk_of_emit {E : Ext} {U : Cmat} {gt : GateType}
    {ctrl target : List Nat} {name : String} {k : Nat} {qc qc' : QCircuit}
    (h : emitGate E U gt ctrl target name k qc = (none, qc')) :
    GateCountOk qc qc' name k := by
  obtain ⟨-, -, -, -, hg, -, hst, hcnt, -⟩ := emitGate_ok h
  refine ⟨hst, ?_, ?_, ?_⟩
  · rw [hg]
    simp
  · rw [hcnt, lookupCountD_bump_same]
  · intro nm' hne
    rw [hcnt, lookupCountD_bump_other _ _ _ _ hne]

/-- C6: every successful gate_fan call (with an explicit target list, or
with the non-measured snapshot as target) advances the per-name gate
counter by the length of its target list while appending exactly one GATE
step; every other successful gate builder advances it by exactly 1 while
appending one GATE step; other names' counters are untouched; and
get_gate_count() equals the sum over the stored names of the per-name
counter read back by get_gate_count(name). -/
theorem gate_count_spec :
    (∀ qc : QCircuit, (qc.count.map (fun p => p.1)).Nodup →
      get_gate_count qc =
        (qc.count.map (fun p => lookupCountD qc.count p.1)).sum) ∧
    (∀ E U i nm qc qc', gate1 E U i nm qc = (none, qc') →
      GateCountOk qc qc' (resolveName E U nm) 1) ∧
    (∀ E U i j nm qc qc', gate2 E U i j nm qc = (none, qc') →
      GateCountOk qc qc' (resolveName E U nm) 1) ∧
    (∀ E U i j k nm qc qc', gate3 E U i j k nm qc = (none, qc') →
      GateCountOk qc qc' (resolveName E U nm) 1) ∧
    (∀ E U t nm qc qc', gate_fan E U t nm qc = (none, qc') →
      GateCountOk qc qc' (resolveName E U nm) t.length) ∧
    (∀ E U nm qc qc', gate_fan_all E U nm qc = (none, qc') →
      GateCountOk qc qc' (resolveName E U nm) (get_non_measured qc).length) ∧
    (∀ E U t nm qc qc', gate_custom E U t nm qc = (none, qc') →
      GateCountOk qc qc' (resolveName E U nm) 1) ∧
    (∀ E U c t nm qc qc', CTRL_sst E U c t nm qc = (none, qc') →
      GateCountOk qc qc' (resolveNameCTRL E U nm) 1) ∧
    (∀ E U c t nm qc qc', CTRL_smt E U c t nm qc = (none, qc') →
      GateCountOk qc qc' (resolveNameCTRL E U nm) 1) ∧
    (∀ E U c t nm qc qc', CTRL_mst E U c t nm qc = (none, qc') →
      GateCountOk qc qc' (resolveNameCTRL E U nm) 1) ∧
    (∀ E U c t nm qc qc', CTRL_mmt E U c t nm qc = (none, qc') →
      GateCountOk qc qc' (resolveNameCTRL E U nm) 1) ∧
    (∀ E U c t nm qc qc', CTRL_custom E U c t nm qc = (none, qc') →
      GateCountOk qc qc' (resolveNameCTRL E U nm) 1) ∧
    (∀ E U c t nm qc qc', cCTRL_sst E U c t nm qc = (none, qc') →
      GateCountOk qc qc' (resolveNameCCTRL E U nm) 1) ∧
    (∀ E U c t nm qc qc', cCTRL_smt E U c t nm qc = (none, qc') →
      GateCountOk qc qc' (resolveNameCCTRL E U nm) 1) ∧
    (∀ E U c t nm qc qc', cCTRL_mst E U c t nm qc = (none, qc') →
      GateCountOk qc qc' (resolveNameCCTRL E U nm) 1) ∧
    (∀ E U c t nm qc qc', cCTRL_mmt E U c t nm qc = (none, qc') →
      GateCountOk qc qc' (resolveNameCCTRL E U nm) 1) ∧
    (∀ E U c t nm qc qc', cCTRL_custom E U c t nm qc = (none, qc') →
      GateCountOk qc qc' (resolveNameCCTRL E U nm) 1) := by
  refine ⟨fun qc hnd => sum_vals_eq_sum_lookup qc.count hnd, ?_, ?_, ?_, ?_,
    ?_, ?_, ?_, ?_, ?_, ?_, ?_, ?_, ?_, ?_, ?_, ?_⟩
  all_goals intros
  all_goals rename_i h
  all_goals simp only [gate1, gate2, gate3, gate_fan, gate_fan_all,
    gate_custom, CTRL_sst, CTRL_smt, CTRL_mst, CTRL_mmt, CTRL_custom,
    cCTRL_sst, cCTRL_smt, cCTRL_mst, cCTRL_mmt, cCTRL_custom] at h
  all_goals repeat' split at h
  all_goals first
    | exact gateCountOk_of_emit h
    | (injection h with h1 h2
       exact Option.noConfusion h1)

/-- Witness for C6: a successful fan of U0 over the two qudits of qc0
advances the counter of its derived name by 2 with one GATE step
appended. -/
theorem gate_count_spec_witness :
    GateCountOk qc0 (gate_fan E0 U0 [0, 1] strEmpty qc0).2
      (resolveName E0 U0 strEmpty) [0, 1].length :=
  gate_count_spec.2.2.2.2.1 E0 U0 [0, 1] strEmpty qc0
    (gate_fan E0 U0 [0, 1] strEmpty qc0).2 rfl

theorem getD_set_true {l : List Bool} {t i : Nat}
    (h : l.getD i false = true) : (l.set t true).getD i false = true := by
  by_cases hit : t = i
  · subst hit
    by_cases hlt : t < l.length
    · rw [List.getD_eq_getElem?_getD, List.getElem?_set_self hlt]
      rfl
    · rw [List.set_eq_of_length_le (by omega)]
      exact h
  · rw [List.getD_eq_getElem?_getD, List.getElem?_set_ne hit,
      ← List.getD_eq_getElem?_getD]
    exact h

theorem getD_foldl_set_true (ts : List Nat) {l : List Bool} {i : Nat}
    (h : l.getD i false = true) :
    (ts.foldl (fun m t => m.set t true) l).getD i false = true := by
  induction ts generalizing l with
  | nil => exact h
  | cons a as ih => exact ih (getD_set_true h)

/-- Counterexample for C5: on a circuit whose qudit 0 has been measured,
the two-qudit gate builder called with targets 0 and 5 references the
measured qudit 0 yet fails with OutOfRange (the joint range check runs
before the measured check), not with QuditAlreadyMeasured as the claim
states. -/
theorem measured_fails_counterexample :
    getMeasured (measureZ 0 0 strEmpty qc0).2 0 = true ∧
    (gate2 E0 U0 0 5 strEmpty (measureZ 0 0 strEmpty qc0).2).1 =
      some Err.OutOfRange ∧
    some Err.OutOfRange ≠ some Err.QuditAlreadyMeasured :=
  ⟨by decide, by decide, by decide⟩

/-- C5 (amended): once a qudit i has measured[i] = true, every subsequent
builder call that references i as a quantum target, quantum control, or
measurement target fails with some error (not necessarily
QuditAlreadyMeasured: an earlier check such as the range check may fire
first), and measured[i] never reverts to false under any builder
operation. -/
theorem measured_monotone_spec :
    (∀ E U i nm qc,
      (getMeasured qc i = true → (gate1 E U i nm qc).1 ≠ none) ∧
      (∀ j, getMeasured qc j = true →
        getMeasured (gate1 E U i nm qc).2 j = true)) ∧
    (∀ E U i j nm qc,
      (getMeasured qc i = true ∨ getMeasured qc j = true →
        (gate2 E U i j nm qc).1 ≠ none) ∧
      (∀m, getMeasured qc m = true →
        getMeasured (gate2 E U i j nm qc).2 m = true)) ∧
    (∀ E U i j k nm qc,
      (getMeasured qc i = true ∨ getMeasured qc j = true ∨
          getMeasured qc k = true →
        (gate3 E U i j k nm qc).1 ≠ none) ∧
      (∀m, getMeasured qc m = true →
        getMeasured (gate3 E U i j k nm qc).2 m = true)) ∧
    (∀ E U target nm qc,
      ((∃ t ∈ target, getMeasured qc t = true) →
        (gate_fan E U target nm qc).1 ≠ none) ∧
      (∀m, getMeasured qc m = true →
        getMeasured (gate_fan E U target nm qc).2 m = true)) ∧
    (∀ E U nm qc m, getMeasured qc m = true →
      getMeasured (gate_fan_all E U nm qc).2 m = true) ∧
    (∀ E U target nm qc,
      ((∃ t ∈ target, getMeasured qc t = true) →
        (gate_custom E U target nm qc).1 ≠ none) ∧
      (∀m, getMeasured qc m = true →
        getMeasured (gate_custom E U target nm qc).2 m = true)) ∧
    (∀ t sw qc, (QFT t sw qc).1 ≠ none ∧
      (∀m, getMeasured qc m = true →
        getMeasured (QFT t sw qc).2 m = true)) ∧
    (∀ t sw qc, (TFQ t sw qc).1 ≠ none ∧
      (∀m, getMeasured qc m = true →
        getMeasured (TFQ t sw qc).2 m = true)) ∧
    (∀ E U c t nm qc,
      (getMeasured qc c = true ∨ getMeasured qc t = true →
        (CTRL_sst E U c t nm qc).1 ≠ none) ∧
      (∀m, getMeasured qc m = true →
        getMeasured (CTRL_sst E U c t nm qc).2 m = true)) ∧
    (∀ E U c target nm qc,
      (getMeasured qc c = true ∨ (∃ t ∈ target, getMeasured qc t = true) →
        (CTRL_smt E U c target nm qc).1 ≠ none) ∧
      (∀m, getMeasured qc m = true →
        getMeasured (CTRL_smt E U c target nm qc).2 m = true)) ∧
    (∀ E U ctrl t nm qc,
      ((∃ c ∈ ctrl, getMeasured qc c = true) ∨ getMeasured qc t = true →
        (CTRL_mst E U ctrl t nm qc).1 ≠ none) ∧
      (∀m, getMeasured qc m = true →
        getMeasured (CTRL_mst E U ctrl t nm qc).2 m = true)) ∧
    (∀ E U ctrl target nm qc,
      ((∃ c ∈ ctrl, getMeasured qc c = true) ∨
          (∃ t ∈ target, getMeasured qc t = true) →
        (CTRL_mmt E U ctrl target nm qc).1 ≠ none) ∧
      (∀m, getMeasured qc m = true →
        getMeasured (CTRL_mmt E U ctrl target nm qc).2 m = true)) ∧
    (∀ E U ctrl target nm qc,
      ((∃ c ∈ ctrl, getMeasured qc c = true) ∨
          (∃ t ∈ target, getMeasured qc t = true) →
        (CTRL_custom E U ctrl target nm qc).1 ≠ none) ∧
      (∀m, getMeasured qc m = true →
        getMeasured (CTRL_custom E U ctrl target nm qc).2 m = true)) ∧
    (∀ E U c t nm qc,
      (getMeasured qc t = true → (cCTRL_sst E U c t nm qc).1 ≠ none) ∧
      (∀m, getMeasured qc m = true →
        getMeasured (cCTRL_sst E U c t nm qc).2 m = true)) ∧
    (∀ E U c target nm qc,
      ((∃ t ∈ target, getMeasured qc t = true) →
        (cCTRL_smt E U c target nm qc).1 ≠ none) ∧
      (∀m, getMeasured qc m = true →
        getMeasured (cCTRL_smt E U c target nm qc).2 m = true)) ∧
    (∀ E U cs t nm qc,
      (getMeasured qc t = true → (cCTRL_mst E U cs t nm qc).1 ≠ none) ∧
      (∀m, getMeasured qc m = true →
        getMeasured (cCTRL_mst E U cs t nm qc).2 m = true)) ∧
    (∀ E U cs target nm qc,
      ((∃ t ∈ target, getMeasured qc t = true) →
        (cCTRL_mmt E U cs target nm qc).1 ≠ none) ∧
      (∀m, getMeasured qc m = true →
        getMeasured (cCTRL_mmt E U cs target nm qc).2 m = true)) ∧
    (∀ E U cs target nm qc,
      ((∃ t ∈ target, getMeasured qc t = true) →
        (cCTRL_custom E U cs target nm qc).1 ≠ none) ∧
      (∀m, getMeasured qc m = true →
        getMeasured (cCTRL_custom E U cs target nm qc).2 m = true)) ∧
    (∀ t c nm qc,
      (getMeasured qc t = true → (measureZ t c nm qc).1 ≠ none) ∧
      (∀m, getMeasured qc m = true →
        getMeasured (measureZ t c nm qc).2 m = true)) ∧
    (∀ E V t c nm qc,
      (getMeasured qc t = true → (measureV E V t c nm qc).1 ≠ none) ∧
      (∀m, getMeasured qc m = true →
        getMeasured (measureV E V t c nm qc).2 m = true)) ∧
    (∀ E V target c nm qc,
      ((∃ t ∈ target, getMeasured qc t = true) →
        (measureV_many E V target c nm qc).1 ≠ none) ∧
      (∀m, getMeasured qc m = true →
        getMeasured (measureV_many E V target c nm qc).2 m = true)) := by
  refine ⟨?_, ?_, ?_, ?_, ?_, ?_, ?_, ?_, ?_, ?_, ?_, ?_, ?_, ?_, ?_, ?_,
    ?_, ?_, ?_, ?_, ?_⟩
  · intro E U i nm qc
    constructor
    · intro hm hnone
      simp only [gate1] at hnone
      (repeat' split at hnone) <;> simp_all
    · intro j hm
      simp only [gate1]
      repeat' split
      all_goals first
        | exact hm
        | (simp only [getMeasured] at hm ⊢
           rw [emitGate_measured]
           exact hm)
  · intro E U i j nm qc
    constructor
    · intro hm hnone
      simp only [gate2] at hnone
      (repeat' split at hnone) <;> simp_all
    · intro m hm
      simp only [gate2]
      repeat' split
      all_goals first
        | exact hm
        | (simp only [getMeasured] at hm ⊢
           rw [emitGate_measured]
           exact hm)
  · intro E U i j k nm qc
    constructor
    · intro hm hnone
      simp only [gate3] at hnone
      (repeat' split at hnone) <;> simp_all
    · intro m hm
      simp only [gate3]
      repeat' split
      all_goals first
        | exact hm
        | (simp only [getMeasured] at hm ⊢
           rw [emitGate_measured]
           exact hm)
  · intro E U target nm qc
    constructor
    · intro hm hnone
      rcases hm with ⟨t, ht, hmt⟩
      rcases hct : checkTargets qc target with _ | e
      · exact absurd (checkTargets_none hct t ht).2 (by simp [hmt])
      · simp only [gate_fan, hct] at hnone
        (repeat' split at hnone) <;> simp_all
    · intro m hm
      simp only [gate_fan]
      repeat' split
      all_goals first
        | exact hm
        | (simp only [getMeasured] at hm ⊢
           rw [emitGate_measured]
           exact hm)
  · intro E U nm qc m hm
    simp only [gate_fan_all]
    repeat' split
    all_goals first
      | exact hm
      | (simp only [getMeasured] at hm ⊢
         rw [emitGate_measured]
         exact hm)
  · intro E U target nm qc
    constructor
    · intro hm hnone
      rcases hm with ⟨t, ht, hmt⟩
      rcases hct : checkTargets qc target with _ | e
      · exact absurd (checkTargets_none hct t ht).2 (by simp [hmt])
      · simp only [gate_custom, hct] at hnone
        (repeat' split at hnone) <;> simp_all
    · intro m hm
      simp only [gate_custom]
      repeat' split
      all_goals first
        | exact hm
        | (simp only [getMeasured] at hm ⊢
           rw [emitGate_measured]
           exact hm)
  · intro t sw qc
    exact ⟨by simp [QFT], fun m hm => hm⟩
  · intro t sw qc
    exact ⟨by simp [TFQ], fun m hm => hm⟩
  · intro E U c t nm qc
    constructor
    · intro hm hnone
      simp only [CTRL_sst] at hnone
      (repeat' split at hnone) <;> simp_all
    · intro m hm
      simp only [CTRL_sst]
      repeat' split
      all_goals first
        | exact hm
        | (simp only [getMeasured] at hm ⊢
           rw [emitGate_measured]
           exact hm)
  · intro E U c target nm qc
    constructor
    · intro hm hnone
      rcases hm with hm | ⟨t, ht, hmt⟩
      · simp only [CTRL_smt] at hnone
        (repeat' split at hnone) <;> simp_all
      · rcases hct : checkTargets qc target with _ | e
        · exact absurd (checkTargets_none hct t ht).2 (by simp [hmt])
        · simp only [CTRL_smt, hct] at hnone
          (repeat' split at hnone) <;> simp_all
    · intro m hm
      simp only [CTRL_smt]
      repeat' split
      all_goals first
        | exact hm
        | (simp only [getMeasured] at hm ⊢
           rw [emitGate_measured]
           exact hm)
  · intro E U ctrl t nm qc
    constructor
    · intro hm hnone
      rcases hm with ⟨c, hc, hmc⟩ | hm
      · rcases hct : checkTargets qc ctrl with _ | e
        · exact absurd (checkTargets_none hct c hc).2 (by simp [hmc])
        · simp only [CTRL_mst, hct] at hnone
          (repeat' split at hnone) <;> simp_all
      · simp only [CTRL_mst] at hnone
        (repeat' split at hnone) <;> simp_all
    · intro m hm
      simp only [CTRL_mst]
      repeat' split
      all_goals first
        | exact hm
        | (simp only [getMeasured] at hm ⊢
           rw [emitGate_measured]
           exact hm)
  · intro E U ctrl target nm qc
    constructor
    · intro hm hnone
      rcases hm with ⟨c, hc, hmc⟩ | ⟨t, ht, hmt⟩
      · rcases hct : checkTargets qc ctrl with _ | e
        · exact absurd (checkTargets_none hct c hc).2 (by simp [hmc])
        · simp only [CTRL_mmt, hct] at hnone
          (repeat' split at hnone) <;> simp_all
      · rcases hct : checkTargets qc target with _ | e
        · exact absurd (checkTargets_none hct t ht).2 (by simp [hmt])
        · simp only [CTRL_mmt, hct] at hnone
          (repeat' split at hnone) <;> simp_all
    · intro m hm
      simp only [CTRL_mmt]
      repeat' split
      all_goals first
        | exact hm
        | (simp only [getMeasured] at hm ⊢
           rw [emitGate_measured]
           exact hm)
  · intro E U ctrl target nm qc
    constructor
    · intro hm hnone
      rcases hm with ⟨c, hc, hmc⟩ | ⟨t, ht, hmt⟩
      · rcases hct : checkTargets qc ctrl with _ | e
        · exact absurd (checkTargets_none hct c hc).2 (by simp [hmc])
        · simp only [CTRL_custom, hct] at hnone
          (repeat' split at hnone) <;> simp_all
      · rcases hct : checkTargets qc target with _ | e
        · exact absurd (checkTargets_none hct t ht).2 (by simp [hmt])
        · simp only [CTRL_custom, hct] at hnone
          (repeat' split at hnone) <;> simp_all
    · intro m hm
      simp only [CTRL_custom]
      repeat' split
      all_goals first
        | exact hm
        | (simp only [getMeasured] at hm ⊢
           rw [emitGate_measured]
           exact hm)
  · intro E U c t nm qc
    constructor
    · intro hm hnone
      simp only [cCTRL_sst] at hnone
      (repeat' split at hnone) <;> simp_all
    · intro m hm
      simp only [cCTRL_sst]
      repeat' split
      all_goals first
        | exact hm
        | (simp only [getMeasured] at hm ⊢
           rw [emitGate_measured]
           exact hm)
  · intro E U c target nm qc
    constructor
    · intro hm hnone
      rcases hm with ⟨t, ht, hmt⟩
      rcases hct : checkTargets qc target with _ | e
      · exact absurd (checkTargets_none hct t ht).2 (by simp [hmt])
      · simp only [cCTRL_smt, hct] at hnone
        (repeat' split at hnone) <;> simp_all
    · intro m hm
      simp only [cCTRL_smt]
      repeat' split
      all_goals first
        | exact hm
        | (simp only [getMeasured] at hm ⊢
           rw [emitGate_measured]
           exact hm)
  · intro E U cs t nm qc
    constructor
    · intro hm hnone
      simp only [cCTRL_mst] at hnone
      (repeat' split at hnone) <;> simp_all
    · intro m hm
      simp only [cCTRL_mst]
      repeat' split
      all_goals first
        | exact hm
        | (simp only [getMeasured] at hm ⊢
           rw [emitGate_measured]
           exact hm)
  · intro E U cs target nm qc
    constructor
    · intro hm hnone
      rcases hm with ⟨t, ht, hmt⟩
      rcases hct : checkTargets qc target with _ | e
      · exact absurd (checkTargets_none hct t ht).2 (by simp [hmt])
      · simp only [cCTRL_mmt, hct] at hnone
        (repeat' split at hnone) <;> simp_all
    · intro m hm
      simp only [cCTRL_mmt]
      repeat' split
      all_goals first
        | exact hm
        | (simp only [getMeasured] at hm ⊢
           rw [emitGate_measured]
           exact hm)
  · intro E U cs target nm qc
    constructor
    · intro hm hnone
      rcases hm with ⟨t, ht, hmt⟩
      rcases hct : checkTargets qc target with _ | e
      · exact absurd (checkTargets_none hct t ht).2 (by simp [hmt])
      · simp only [cCTRL_custom, hct] at hnone
        (repeat' split at hnone) <;> simp_all
    · intro m hm
      simp only [cCTRL_custom]
      repeat' split
      all_goals first
        | exact hm
        | (simp only [getMeasured] at hm ⊢
           rw [emitGate_measured]
           exact hm)
  · intro t c nm qc
    constructor
    · intro hm hnone
      simp only [measureZ] at hnone
      (repeat' split at hnone) <;> simp_all
    · intro m hm
      simp only [measureZ]
      repeat' split
      all_goals first
        | exact hm
        | (simp only [getMeasured] at hm ⊢
           exact getD_set_true hm)
  · intro E V t c nm qc
    constructor
    · intro hm hnone
      simp only [measureV] at hnone
      (repeat' split at hnone) <;> simp_all
    · intro m hm
      simp only [measureV]
      repeat' split
      all_goals first
        | exact hm
        | (simp only [getMeasured] at hm ⊢
           exact getD_set_true hm)
  · intro E V target c nm qc
    constructor
    · intro hm hnone
      rcases hm with ⟨t, ht, hmt⟩
      rcases hct : checkTargets qc target with _ | e
      · exact absurd (checkTargets_none hct t ht).2 (by simp [hmt])
      · simp only [measureV_many, hct] at hnone
        (repeat' split at hnone) <;> simp_all
    · intro m hm
      simp only [measureV_many]
      repeat' split
      all_goals first
        | exact hm
        | (simp only [getMeasured] at hm ⊢
           exact getD_foldl_set_true _ hm)

/-- Witness for C5 (amended): on the circuit with qudit 0 measured, the
single-qudit gate builder on qudit 0 fails, and qudit 0 stays measured in
the returned circuit. -/
theorem measured_monotone_spec_witness :
    (gate1 E0 U0 0 strEmpty (measureZ 0 0 strEmpty qc0).2).1 ≠ none ∧
    getMeasured (gate1 E0 U0 0 strEmpty (measureZ 0 0 strEmpty qc0).2).2 0 =
      true :=
  ⟨(measured_monotone_spec.1 E0 U0 0 strEmpty
      (measureZ 0 0 strEmpty qc0).2).1 (by decide),
   (measured_monotone_spec.1 E0 U0 0 strEmpty
      (measureZ 0 0 strEmpty qc0).2).2 0 (by decide)⟩

/-- Counterexample for C2: the cCTRL overload taking a classical-control
vector, called with an empty ctrl_dits list on the fresh circuit qc0,
does not fail with ZeroSize: it succeeds and appends a GATE step. -/
theorem empty_list_counterexample :
    (cCTRL_mst E0 U0 [] 0 strEmpty qc0).1 = none ∧
    (cCTRL_mst E0 U0 [] 0 strEmpty qc0).2.step_types =
      qc0.step_types ++ [StepType.GATE] :=
  ⟨by decide, by decide⟩

/-- C2 (amended): every target multi-index parameter must be non-empty: a
call passing an empty target list fails with ZeroSize and appends no step;
but the ctrl vector of CTRL/CTRL_custom and the ctrl_dits vector of
cCTRL/cCTRL_custom are never checked for emptiness, so (with the other
arguments valid) such calls succeed and append a step. -/
theorem zero_size_spec :
    (∀ E U nm qc, gate_fan E U [] nm qc = (some Err.ZeroSize, qc)) ∧
    (∀ E U nm qc, gate_custom E U [] nm qc = (some Err.ZeroSize, qc)) ∧
    (∀ E V c nm qc, measureV_many E V [] c nm qc = (some Err.ZeroSize, qc)) ∧
    (∀ E U c nm qc, c < qc.nq → getMeasured qc c = false →
      CTRL_smt E U c [] nm qc = (some Err.ZeroSize, qc)) ∧
    (∀ E U ctrl nm qc,
      (∀ x ∈ ctrl, x < qc.nq ∧ getMeasured qc x = false) → ctrl.Nodup →
      CTRL_mmt E U ctrl [] nm qc = (some Err.ZeroSize, qc)) ∧
    (∀ E U ctrl nm qc,
      (∀ x ∈ ctrl, x < qc.nq ∧ getMeasured qc x = false) → ctrl.Nodup →
      CTRL_custom E U ctrl [] nm qc = (some Err.ZeroSize, qc)) ∧
    (∀ E U c nm qc, c < qc.nc →
      cCTRL_smt E U c [] nm qc = (some Err.ZeroSize, qc)) ∧
    (∀ E U cs nm qc, (∀ x ∈ cs, x < qc.nc) → cs.Nodup →
      cCTRL_mmt E U cs [] nm qc = (some Err.ZeroSize, qc)) ∧
    (∀ E U cs nm qc, (∀ x ∈ cs, x < qc.nc) → cs.Nodup →
      cCTRL_custom E U cs [] nm qc = (some Err.ZeroSize, qc)) ∧
    (∀ E U t nm qc tbl, t < qc.nq → getMeasured qc t = false →
      check_square_mat U = true → U.rows = qc.d →
      add_hash E U (E.hash_eigen U) qc.cache = Except.ok tbl →
      (CTRL_mst E U [] t nm qc).1 = none ∧
      (CTRL_mst E U [] t nm qc).2.step_types =
        qc.step_types ++ [StepType.GATE]) ∧
    (∀ E U target nm qc tbl, target ≠ [] →
      (∀ x ∈ target, x < qc.nq ∧ getMeasured qc x = false) → target.Nodup →
      check_square_mat U = true → U.rows = qc.d →
      add_hash E U (E.hash_eigen U) qc.cache = Except.ok tbl →
      (CTRL_mmt E U [] target nm qc).1 = none ∧
      (CTRL_mmt E U [] target nm qc).2.step_types =
        qc.step_types ++ [StepType.GATE]) ∧
    (∀ E U t nm qc tbl, t < qc.nq → getMeasured qc t = false →
      check_square_mat U = true → U.rows = qc.d →
      add_hash E U (E.hash_eigen U) qc.cache = Except.ok tbl →
      (cCTRL_mst E U [] t nm qc).1 = none ∧
      (cCTRL_mst E U [] t nm qc).2.step_types =
        qc.step_types ++ [StepType.GATE]) ∧
    (∀ E U target nm qc tbl, target ≠ [] →
      (∀ x ∈ target, x < qc.nq ∧ getMeasured qc x = false) → target.Nodup →
      check_square_mat U = true → U.rows = qc.d →
      add_hash E U (E.hash_eigen U) qc.cache = Except.ok tbl →
      (cCTRL_mmt E U [] target nm qc).1 = none ∧
      (cCTRL_mmt E U [] target nm qc).2.step_types =
        qc.step_types ++ [StepType.GATE]) ∧
    (∀ E U target nm qc tbl, target ≠ [] →
      (∀ x ∈ target, x < qc.nq ∧ getMeasured qc x = false) → target.Nodup →
      check_square_mat U = true → U.rows = qc.d ^ target.length →
      add_hash E U (E.hash_eigen U) qc.cache = Except.ok tbl →
      (cCTRL_custom E U [] target nm qc).1 = none ∧
      (cCTRL_custom E U [] target nm qc).2.step_types =
        qc.step_types ++ [StepType.GATE]) := by
  refine ⟨fun E U nm qc => rfl, fun E U nm qc => rfl, fun E V c nm qc => rfl,
    ?_, ?_, ?_, ?_, ?_, ?_, ?_, ?_, ?_, ?_, ?_⟩
  · intro E U c nm qc hc hmc
    simp only [CTRL_smt]
    rw [if_neg (by omega), if_neg (by simp [hmc])]
    rfl
  · intro E U ctrl nm qc hv hnd
    simp only [CTRL_mmt]
    rw [checkTargets_eq_none hv,
      if_neg (by simp [check_no_duplicates, hnd])]
    rfl
  · intro E U ctrl nm qc hv hnd
    simp only [CTRL_custom]
    rw [checkTargets_eq_none hv,
      if_neg (by simp [check_no_duplicates, hnd])]
    rfl
  · intro E U c nm qc hc
    simp only [cCTRL_smt]
    rw [if_neg (by omega)]
    rfl
  · intro E U cs nm qc hv hnd
    simp only [cCTRL_mmt]
    rw [checkDits_eq_none hv,
      if_neg (by simp [check_no_duplicates, hnd])]
    rfl
  · intro E U cs nm qc hv hnd
    simp only [cCTRL_custom]
    rw [checkDits_eq_none hv,
      if_neg (by simp [check_no_duplicates, hnd])]
    rfl
  · intro E U t nm qc tbl ht hmt hsq hdim hadd
    have hred : CTRL_mst E U [] t nm qc =
        (if t ≥ qc.nq then (some Err.OutOfRange, qc)
         else if getMeasured qc t then (some Err.QuditAlreadyMeasured, qc)
         else if ¬ check_square_mat U then (some Err.MatrixNotSquare, qc)
         else if U.rows ≠ qc.d then (some Err.DimsMismatchMatrix, qc)
         else emitGate E U GateType.MULTIPLE_CTRL_SINGLE_TARGET [] [t]
           (resolveNameCTRL E U nm) 1 qc) := rfl
    rw [hred, if_neg (by omega), if_neg (by simp [hmt]),
      if_neg (by simp [hsq]), if_neg (by simp [hdim])]
    unfold emitGate
    rw [hadd]
    exact ⟨rfl, rfl⟩
  · intro E U target nm qc tbl htne hv hnd hsq hdim hadd
    have hred : CTRL_mmt E U [] target nm qc =
        (if target.length = 0 then (some Err.ZeroSize, qc)
         else match checkTargets qc target with
          | some e => (some e, qc)
          | none =>
              if ¬ check_no_duplicates target then (some Err.Duplicates, qc)
              else if ¬ check_square_mat U then (some Err.MatrixNotSquare, qc)
              else if U.rows ≠ qc.d then (some Err.DimsMismatchMatrix, qc)
              else emitGate E U GateType.MULTIPLE_CTRL_MULTIPLE_TARGET []
                target (resolveNameCTRL E U nm) 1 qc) := rfl
    rw [hred, if_neg (by simp [htne]), checkTargets_eq_none hv,
      if_neg (by simp [check_no_duplicates, hnd]), if_neg (by simp [hsq]),
      if_neg (by simp [hdim])]
    unfold emitGate
    rw [hadd]
    exact ⟨rfl, rfl⟩
  · intro E U t nm qc tbl ht hmt hsq hdim hadd
    have hred : cCTRL_mst E U [] t nm qc =
        (if t ≥ qc.nq then (some Err.OutOfRange, qc)
         else if getMeasured qc t then (some Err.QuditAlreadyMeasured, qc)
         else if ¬ check_square_mat U then (some Err.MatrixNotSquare, qc)
         else if U.rows ≠ qc.d then (some Err.DimsMismatchMatrix, qc)
         else emitGate E U GateType.MULTIPLE_cCTRL_SINGLE_TARGET [] [t]
           (resolveNameCCTRL E U nm) 1 qc) := rfl
    rw [hred, if_neg (by omega), if_neg (by simp [hmt]),
      if_neg (by simp [hsq]), if_neg (by simp [hdim])]
    unfold emitGate
    rw [hadd]
    exact ⟨rfl, rfl⟩
  · intro E U target nm qc tbl htne hv hnd hsq hdim hadd
    have hred : cCTRL_mmt E U [] target nm qc =
        (if target.length = 0 then (some Err.ZeroSize, qc)
         else match checkTargets qc target with
          | some e => (some e, qc)
          | none =>
              if ¬ check_no_duplicates target then (some Err.Duplicates, qc)
              else if ¬ check_square_mat U then (some Err.MatrixNotSquare, qc)
              else if U.rows ≠ qc.d then (some Err.DimsMismatchMatrix, qc)
              else emitGate E U GateType.MULTIPLE_cCTRL_MULTIPLE_TARGET []
                target (resolveNameCCTRL E U nm) 1 qc) := rfl
    rw [hred, if_neg (by simp [htne]), checkTargets_eq_none hv,
      if_neg (by simp [check_no_duplicates, hnd]), if_neg (by simp [hsq]),
      if_neg (by simp [hdim])]
    unfold emitGate
    rw [hadd]
    exact ⟨rfl, rfl⟩
  · intro E U target nm qc tbl htne hv hnd hsq hdim hadd
    have hred : cCTRL_custom E U [] target nm qc =
        (if target.length = 0 then (some Err.ZeroSize, qc)
         else match checkTargets qc target with
          | some e => (some e, qc)
          | none =>
              if ¬ check_no_duplicates target then (some Err.Duplicates, qc)
              else if ¬ check_square_mat U then (some Err.MatrixNotSquare, qc)
              else if U.rows ≠ qc.d ^ target.length then
                (some Err.DimsMismatchMatrix, qc)
              else emitGate E U GateType.CUSTOM_cCTRL []
                target (resolveNameCCTRL E U nm) 1 qc) := rfl
    rw [hred, if_neg (by simp [htne]), checkTargets_eq_none hv,
      if_neg (by simp [check_no_duplicates, hnd]), if_neg (by simp [hsq]),
      if_neg (by simp [hdim])]
    unfold emitGate
    rw [hadd]
    exact ⟨rfl, rfl⟩

/-- Witness for C2 (amended): the empty-target fan on qc0 fails with
ZeroSize, while the multi-control CTRL with empty ctrl on valid target 0
succeeds and appends a GATE step. -/
theorem zero_size_spec_witness :
    gate_fan E0 U0 [] strEmpty qc0 = (some Err.ZeroSize, qc0) ∧
    ((CTRL_mst E0 U0 [] 0 strEmpty qc0).1 = none ∧
      (CTRL_mst E0 U0 [] 0 strEmpty qc0).2.step_types =
        qc0.step_types ++ [StepType.GATE]) :=
  ⟨zero_size_spec.1 E0 U0 strEmpty qc0,
   zero_size_spec.2.2.2.2.2.2.2.2.2.1 E0 U0 0 strEmpty qc0 [(4, U0)]
     (by decide) (by decide) (by decide) (by decide) rfl⟩

end Qpp
